import Mathlib

/-!
Verification development for the coingro_controller repository.

The definitions below are a shallow embedding of the Python sources:

  controller.py              (Controller.check_bots, create_bot, deactivate_bot,
                              refresh_strategies)
  persistence/bot.py         (Bot rows and queries)
  persistence/strategy.py    (Strategy rows and queries)
  persistence/user.py        (User rows and queries)
  persistence/models.py      (custom_serializer)
  k8s/resources.py           (Resources.get_coingro_pod)
  rpc/api_server/deps.py     (get_user, get_bot)
  worker.py                  (Worker._throttle)

Python dicts are insertion-ordered association lists, machine timestamps are
naturals (seconds), SQLAlchemy sessions are explicit list-of-row states, and
the Kubernetes cluster is a read-only map from pod name to phase plus an
emitted trace of mutating operations.
-/

namespace CGC

/-- Kubernetes pod phase, as read from `Pod.status.phase` (a string in the
source; only the two phases the controller tests for are distinguished
from the rest). -/
inductive PodPhase
  | Running
  | Pending
  | Succeeded
  | Failed
  | Unknown
deriving DecidableEq, Repr

/-- Bot lifecycle state, `coingro.enums.State`. -/
inductive BotState
  | RUNNING
  | STOPPED
  | RELOAD_CONFIG
deriving DecidableEq, Repr

/-- Python `State.name.lower()`. -/
def stateName : BotState → String
  | .RUNNING => "running"
  | .STOPPED => "stopped"
  | .RELOAD_CONFIG => "reload_config"

/-- User role, enums/role.py. -/
inductive Role
  | user
  | admin
  | superadmin
deriving DecidableEq, Repr

/-! Python dictionaries with string keys, as insertion-ordered association
lists.  `dictSet` is `d[k] = v` (replace in place when the key is present,
else append at the end); `dictUpdate` is `d.update(u)`. -/

/-- Python `k in d`. -/
def keyMem {α : Type} (m : List (String × α)) (k : String) : Bool :=
  m.any (fun p => p.1 = k)

/-- Python `d[k] = v` on an insertion-ordered dict. -/
def dictSet {α : Type} (m : List (String × α)) (k : String) (v : α) :
    List (String × α) :=
  if keyMem m k then m.map (fun p => if p.1 = k then (k, v) else p)
  else m ++ [(k, v)]

/-- Python `d.update(u)`, folding `dictSet` over the entries of `u`. -/
def dictUpdate {α : Type} (m u : List (String × α)) : List (String × α) :=
  u.foldl (fun acc p => dictSet acc p.1 p.2) m

/-- First value stored under key `k`. -/
def lookupKey {α : Type} (m : List (String × α)) (k : String) : Option α :=
  (m.find? (fun p => p.1 = k)).map (fun p => p.2)

/-- A dict whose keys are pairwise distinct, as every Python dict is. -/
def NodupKeys {α : Type} (m : List (String × α)) : Prop :=
  (m.map (fun p => p.1)).Nodup

instance {α : Type} (m : List (String × α)) : Decidable (NodupKeys m) := by
  unfold NodupKeys; infer_instance

/-- Environment-variable mapping (string keys to string values). -/
abbrev EnvMap := List (String × String)

/-! JSON-like values, the shape of the `Bot.configuration` blob.  Numbers
carry the IEEE infinity that Python's `float("inf")` produces; finite
numbers are abstracted as integers (no claim depends on fractional
values inside the blob). -/

/-- Numeric JSON value: a finite integer or one of the two infinities. -/
inductive JNum
  | int (i : Int)
  | inf
  | ninf
deriving DecidableEq, Repr

/-- JSON value. -/
inductive JVal
  | jnull
  | jbool (b : Bool)
  | jnum (n : JNum)
  | jstr (s : String)
  | jarr (xs : List JVal)
  | jobj (kvs : List (String × JVal))

mutual

/-- Serialization of a JSON value, the behaviour of `rapidjson.dumps`
restricted to the value shapes above (string escaping and the
`default=str` fallback do not arise for them). -/
def jdump : JVal → String
  | .jnull => "null"
  | .jbool true => "true"
  | .jbool false => "false"
  | .jnum (.int i) => toString i
  | .jnum .inf => "Infinity"
  | .jnum .ninf => "-Infinity"
  | .jstr s => "\"" ++ s ++ "\""
  | .jarr xs => "[" ++ jdumpArr xs ++ "]"
  | .jobj kvs => "\x7b" ++ jdumpObj kvs ++ "\x7d"

def jdumpArr : List JVal → String
  | [] => ""
  | [x] => jdump x
  | x :: y :: xs => jdump x ++ "," ++ jdumpArr (y :: xs)

def jdumpObj : List (String × JVal) → String
  | [] => ""
  | [(k, v)] => "\"" ++ k ++ "\":" ++ jdump v
  | (k, v) :: q :: xs => "\"" ++ k ++ "\":" ++ jdump v ++ "," ++ jdumpObj (q :: xs)

end

/-- The `custom_serializer` of persistence/models.py: before dumping, a dict
whose `max_open_trades` entry equals `float("inf")` has that entry
replaced by `-1`; everything else is dumped as ordinary JSON. -/
def custom_serializer (obj : JVal) : String :=
  match obj with
  | .jobj kvs =>
    match lookupKey kvs "max_open_trades" with
    | some (.jnum .inf) => jdump (.jobj (dictSet kvs "max_open_trades" (.jnum (.int (-1)))))
    | _ => jdump (.jobj kvs)
  | v => jdump v

/-! Worker._throttle, worker.py lines 141-157.  Wall-clock time is modelled
as exact rational seconds; the wrapped callable is modelled by the time
`t` it takes and the value it returns. -/

/-- Observable outcome of one throttled call. -/
structure ThrottleRun (α : Type) where
  sleep_duration : ℚ
  elapsed : ℚ
  result : α

/-- Worker._throttle: run the callable, then sleep for
`max (throttle_secs - time_passed) 0` and hand back the callable's
result.  `elapsed` is the wall time of the whole throttled iteration. -/
def throttleCall {α : Type} (throttle_secs t : ℚ) (r : α) : ThrottleRun α :=
  let sleep_duration := max (throttle_secs - t) 0
  { sleep_duration := sleep_duration
    elapsed := t + sleep_duration
    result := r }

/-! Persistence rows.  Timestamps are naturals (seconds since the epoch);
nullable SQL columns are `Option`.  `version` carries the release
segments of the stored semantic-version string, already parsed (the
source parses with `packaging.version.parse` at every comparison). -/

/-- A row of the `users` table (the columns the claims touch). -/
structure UserRow where
  id : Nat
  role : Role
  deleted_at : Option Nat := none
deriving DecidableEq, Repr

/-- A row of the `bots` table. -/
structure BotRow where
  id : Nat
  bot_id : String
  bot_name : String
  user_id : Option Nat := none
  image : String := ""
  version : List Nat := []
  api_url : String := ""
  strategy : Option String := none
  exchange : Option String := none
  stake_currency : Option String := none
  state : BotState := .STOPPED
  is_active : Bool := true
  is_strategy : Bool := false
  configuration : Option JVal := none
  created_at : Nat := 0
  updated_at : Option Nat := none
  deleted_at : Option Nat := none

/-- A row of the `strategies` table.  Profit ratios are exact rationals
(the source stores floats; no claim depends on rounding). -/
structure StrategyRow where
  id : Nat
  strategy_name : String
  bot_fk : Nat
  category : Option String := none
  tags : Option String := none
  short_description : Option String := none
  long_description : Option String := none
  daily_profit : ℚ := 0
  daily_trade_count : Int := 0
  weekly_profit : ℚ := 0
  weekly_trade_count : Int := 0
  monthly_profit : ℚ := 0
  monthly_trade_count : Int := 0
  profit_ratio_mean : ℚ := 0
  profit_ratio_sum : ℚ := 0
  profit_ratio : ℚ := 0
  trade_count : Int := 0
  first_trade : Option Nat := none
  latest_trade : Option Nat := none
  avg_duration : Option Nat := none
  winning_trades : Option Int := none
  losing_trades : Option Int := none
  latest_refresh : Option Nat := none
deriving DecidableEq, Repr

/-- Query `Bot.bot_by_id`: first row whose `bot_id` column matches. -/
def bot_by_id (db : List BotRow) (bid : String) : Option BotRow :=
  db.find? (fun b => b.bot_id = bid)

/-- Query `Bot.get_active_bots`, persistence/bot.py lines 105-111: the
filter is `is_active IS true` and nothing else. -/
def get_active_bots (db : List BotRow) : List BotRow :=
  db.filter (fun b => b.is_active)

/-- Query `User.user_by_id`.  A `None` id (missing header) matches no row,
as the SQL comparison `User.id == NULL` is never true. -/
def user_by_id (users : List UserRow) (uid : Option Nat) : Option UserRow :=
  match uid with
  | none => none
  | some u => users.find? (fun r => r.id = u)

/-- Query `Strategy.strategy_by_bot_id`: join with `bots` on the foreign
key and filter on the bot's `bot_id` column. -/
def strategy_by_bot_id (db : List BotRow) (strategies : List StrategyRow)
    (bid : String) : Option StrategyRow :=
  strategies.find? (fun s =>
    (db.find? (fun b => b.id = s.bot_fk && b.bot_id = bid)).isSome)

/-- Query `Strategy.get_active_strategies`: join with `bots`, keep the
strategies whose backing bot has `is_active IS true`. -/
def get_active_strategies (db : List BotRow) (strategies : List StrategyRow) :
    List StrategyRow :=
  strategies.filter (fun s =>
    match db.find? (fun b => b.id = s.bot_fk) with
    | some b => b.is_active
    | none => false)

/-! The request dependencies of rpc/api_server/deps.py.  A handler
dependency either yields a row or aborts the request with an HTTP
status; the two statuses these dependencies raise are 404 and 401. -/

/-- HTTP error statuses raised by `get_user` and `get_bot`. -/
inductive HErr
  | notFound
  | unauthorized
deriving DecidableEq, Repr

/-- Dependency `get_user`, deps.py lines 55-62: resolve the `userid`
header against the users table, 404 when absent or unknown. -/
def get_user (users : List UserRow) (uid : Option Nat) : Except HErr UserRow :=
  match user_by_id users uid with
  | none => .error .notFound
  | some u => .ok u

/-- Dependency `get_bot`, deps.py lines 65-75: resolve the user, then the
bot; 404 for a missing or tombstoned bot, 401 when a `user`-role caller
does not own the bot. -/
def get_bot (users : List UserRow) (db : List BotRow) (uid : Option Nat)
    (botid : String) : Except HErr BotRow := do
  let user ← get_user users uid
  match bot_by_id db botid with
  | none => .error .notFound
  | some b =>
    if b.deleted_at.isSome then .error .notFound
    else if user.role = Role.user ∧ b.user_id ≠ some user.id then .error .unauthorized
    else .ok b

/-! The controller, controller.py.  The Kubernetes cluster is a read-only
map from pod name to phase (`get_coingro_instance` reads it); the
mutating facade calls are emitted as a trace of `K8sOp` so that claims
about which pods get created can quantify over the trace. -/

/-- Lowercase an ASCII character. -/
def lowerChar (c : Char) : Char :=
  if 'A' ≤ c ∧ c ≤ 'Z' then Char.ofNat (c.toNat + 32) else c

/-- Python `str.lower()` on the ASCII identifiers the controller uses. -/
def lower (s : String) : String := String.mk (s.data.map lowerChar)

/-- Strict comparison of parsed version release segments, the order
`packaging.version.parse(a) < packaging.version.parse(b)` restricted to
plain release versions: compare componentwise, padding the shorter
version with zeros (so `1.0` equals `1.0.0`). -/
def versionLt : List Nat → List Nat → Bool
  | [], ys => ys.any (fun y => 0 < y)
  | _ :: _, [] => false
  | x :: xs, y :: ys => x < y || (x = y && versionLt xs ys)

/-- Controller configuration keys that the reconciler reads.  The field
`router_pfx` carries the config key for the optional API router path
segment used to derive `api_url`. -/
structure ControllerCfg where
  cg_image : String
  cg_version : List Nat
  cg_initial_state : Option BotState := none
  router_pfx : Option String := none
  default_strategy_exchange : Option String := none
  default_strategy_stake_currency : Option String := none
  default_bot_config : List (String × JVal) := []

/-- A mutating call on the cluster facade (k8s/client.py). -/
inductive K8sOp
  | createInstance (bot_id : String) (config : JVal) (env : EnvMap)
  | replaceInstance (bot_id : String) (config : JVal) (env : EnvMap)
  | deleteInstance (bot_id : String)

/-- Whether an op creates or replaces a pod with the given name. -/
def K8sOp.buildsPod (op : K8sOp) (name : String) : Bool :=
  match op with
  | .createInstance n _ _ => n = name
  | .replaceInstance n _ _ => n = name
  | .deleteInstance _ => false

/-- Live pod phases by pod name, the view `get_coingro_instance` reads. -/
abbrev Cluster := String → Option PodPhase

/-- Derivation of `api_url` in create_bot (controller.py lines 191-195). -/
def apiUrl (cfg : ControllerCfg) (bid : String) : String :=
  match cfg.router_pfx with
  | some p => "http://" ++ bid ++ "/" ++ p
  | none => "http://" ++ bid

/-- Result of one `create_bot` call: the database after the call, the
cluster operations it issued, and the returned `(bot_id, bot_name)`. -/
structure CreateOut where
  db : List BotRow
  ops : List K8sOp
  bot_id : String
  bot_name : String

/-- Fresh surrogate primary key for an inserted row. -/
def nextId (db : List BotRow) : Nat :=
  (db.map (fun b => b.id)).foldl max 0 + 1

/-- Name resolution of create_bot for an existing row (line 139-143):
the argument, else the row's current name. -/
def activeName (bot_name0 : Option String) (b : BotRow) : String :=
  bot_name0.getD b.bot_name

/-- Env merge of create_bot for an existing row (lines 145-148):
`COINGRO__BOT_NAME` always, `COINGRO__INITIAL_STATE` because a row
exists. -/
def activeEnv (env_vars : EnvMap) (bot_name0 : Option String) (b : BotRow) : EnvMap :=
  dictSet (dictSet env_vars "COINGRO__BOT_NAME" (activeName bot_name0 b))
    "COINGRO__INITIAL_STATE" (stateName b.state)

/-- Effective configuration of an existing row (lines 158-162): the row's
blob when it is a truthy dict, else a copy of the controller's default
bot template. -/
def effectiveConfig (cfg : ControllerCfg) (b : BotRow) : List (String × JVal) :=
  match b.configuration with
  | some (.jobj kvs) => if kvs.isEmpty then cfg.default_bot_config else kvs
  | _ => cfg.default_bot_config

/-- The bot config shipped to the cluster for an existing row (line 163):
the effective configuration with `bot_name` forced. -/
def activeConfig (cfg : ControllerCfg) (bot_name0 : Option String) (b : BotRow) : JVal :=
  .jobj (dictSet (effectiveConfig cfg b) "bot_name" (.jstr (activeName bot_name0 b)))

/-- Lines 165-170: replace the instance when a pod exists, else create
it. -/
def renderOps (cluster : Cluster) (bid : String) (c : JVal) (env : EnvMap) : List K8sOp :=
  match cluster bid with
  | some _ => [.replaceInstance bid c env]
  | none => [.createInstance bid c env]

/-- The write-back of create_bot onto an existing row (lines 187-197). -/
def writeBack (cfg : ControllerCfg) (update : Bool) (now : Nat) (c : JVal)
    (bid : String) (b : BotRow) : BotRow :=
  { b with
    configuration := some c
    is_active := true
    image := cfg.cg_image
    version := cfg.cg_version
    api_url := apiUrl cfg bid
    updated_at := if update then some now else b.updated_at }

/-- The row create_bot inserts when none existed (lines 172-185), with the
write-back fields of lines 187-197 already applied. -/
def newRow (cfg : ControllerCfg) (bid bot_name : String) (user : Option Nat)
    (is_strategy : Bool) (c : JVal) (now : Nat) (db : List BotRow) : BotRow :=
  { id := nextId db
    bot_id := bid
    bot_name := bot_name
    user_id := user
    is_strategy := is_strategy
    state :=
      if is_strategy then .RUNNING
      else cfg.cg_initial_state.getD .STOPPED
    strategy := if is_strategy then some bot_name else none
    exchange :=
      if is_strategy then some (cfg.default_strategy_exchange.getD "binance")
      else none
    stake_currency :=
      if is_strategy then some (cfg.default_strategy_stake_currency.getD "USDT")
      else none
    configuration := some c
    is_active := true
    image := cfg.cg_image
    version := cfg.cg_version
    api_url := apiUrl cfg bid
    created_at := now }

/-- Controller.create_bot, controller.py lines 119-200, after the random
bot id has been resolved (`bot_id0` is the id argument or the drawn
id).  `rand_name` stands for the `randomname.get_name(...).title()`
draw used when a fresh human label is needed; `now` is the wall clock
read by `datetime.utcnow()`.  Mirrors the source: lowercase the id,
look the row up, resolve the name, merge the env, and then either hit
the tombstone guard (no cluster call, no write) or render and
create/replace the instance and write the row back. -/
def create_bot_core (cfg : ControllerCfg) (cluster : Cluster)
    (db : List BotRow) (bot_id0 : String) (bot_name0 : Option String)
    (user : Option Nat) (is_strategy update : Bool) (env_vars : EnvMap)
    (rand_name : String) (now : Nat) : CreateOut :=
  let bot_id := lower bot_id0
  match bot_by_id db bot_id with
  | some b =>
    if b.deleted_at.isSome then
      -- `is_deleted` guard: return the existing identifiers untouched
      { db := db, ops := [], bot_id := b.bot_id, bot_name := b.bot_name }
    else
      let c := activeConfig cfg bot_name0 b
      let b1 := writeBack cfg update now c bot_id b
      { db := db.map (fun r => if r.bot_id = bot_id then b1 else r)
        ops := renderOps cluster bot_id c (activeEnv env_vars bot_name0 b)
        bot_id := b1.bot_id
        bot_name := b1.bot_name }
  | none =>
    let bot_name := bot_name0.getD rand_name
    let c := JVal.jobj (dictSet cfg.default_bot_config "bot_name" (.jstr bot_name))
    { db := db ++ [newRow cfg bot_id bot_name user is_strategy c now db]
      ops := renderOps cluster bot_id c (dictSet env_vars "COINGRO__BOT_NAME" bot_name)
      bot_id := bot_id
      bot_name := bot_name }

/-- The id-generation loop of create_bot (lines 128-133): draw `bot-<hex>`
ids from the random stream until one misses every existing row.  The
stream of `uuid4().hex` draws is a list; `none` models exhausting it
(the source would keep drawing). -/
def gen_bot_id (db : List BotRow) : List String → Option String
  | [] => none
  | uid :: rest =>
    let bid := "bot-" ++ uid
    match bot_by_id db bid with
    | some _ => gen_bot_id db rest
    | none => some bid

/-- Controller.create_bot, id generation included. -/
def create_bot (cfg : ControllerCfg) (cluster : Cluster) (db : List BotRow)
    (bot_id0 : Option String) (bot_name0 : Option String) (user : Option Nat)
    (is_strategy update : Bool) (env_vars : EnvMap) (draws : List String)
    (rand_name : String) (now : Nat) : Option CreateOut :=
  match bot_id0 with
  | some bid =>
    some (create_bot_core cfg cluster db bid bot_name0 user is_strategy update
      env_vars rand_name now)
  | none =>
    (gen_bot_id db draws).map (fun bid =>
      create_bot_core cfg cluster db bid bot_name0 user is_strategy update
        env_vars rand_name now)

/-- Controller.deactivate_bot, controller.py lines 202-212: delete the
instance, clear `is_active`, stamp `deleted_at` when `delete` is set. -/
def deactivate_bot (db : List BotRow) (bot_id : String) (del : Bool)
    (now : Nat) : List BotRow × List K8sOp × Option String :=
  match bot_by_id db bot_id with
  | none => (db, [], none)
  | some b =>
    let b1 : BotRow :=
      { b with
        is_active := false
        deleted_at := if del then some now else b.deleted_at }
    (db.map (fun r => if r.bot_id = bot_id then b1 else r),
      [.deleteInstance bot_id], some b.bot_id)

/-- One `create_bot` invocation as issued by `check_bots` (target id, the
`update` flag, and the env overrides passed along). -/
structure CreateCall where
  bot_id : String
  update : Bool
  env : EnvMap
deriving DecidableEq, Repr

/-- The env overrides check_bots passes for a strategy bot
(controller.py lines 105-114). -/
def strategyEnv (bot_name : String) : EnvMap :=
  [("COINGRO__STRATEGY", bot_name),
   ("COINGRO__INITIAL_STATE", "running"),
   ("COINGRO__MAX_OPEN_TRADES", "-1"),
   ("COINGRO__DRY_RUN_WALLET", "100000")]

/-- The test `status not in ("Running", "Pending")` with `status = None`
when no pod exists. -/
def statusBad (status : Option PodPhase) : Bool :=
  match status with
  | some .Running => false
  | some .Pending => false
  | _ => true

/-- State threaded through the check_bots loop: session rows, emitted
cluster ops, and the `create_bot` calls made so far. -/
structure TickAcc where
  db : List BotRow
  ops : List K8sOp
  calls : List CreateCall

/-- The check_bots trigger for one bot (lines 100-102): the pod is
absent or in a phase other than Running or Pending, or the stored
version is older than the controller version. -/
def checkBotsCond (cfg : ControllerCfg) (cluster : Cluster) (bot : BotRow) : Bool :=
  statusBad (cluster (lower bot.bot_id)) || versionLt bot.version cfg.cg_version

/-- The env overrides one check_bots iteration passes (lines 103-117):
the strategy overrides when the row is a strategy bot with a joined
Strategy row, else nothing. -/
def checkBotsEnv (db : List BotRow) (strategies : List StrategyRow)
    (bot : BotRow) : EnvMap :=
  if bot.is_strategy then
    if (strategy_by_bot_id db strategies bot.bot_id).isSome then
      strategyEnv bot.bot_name
    else []
  else []

/-- One iteration of the check_bots loop for the snapshot row `bot`:
query the pod, compare versions, and when the pod is absent, dead, or
the row is outdated, call `create_bot` (with the strategy env overrides
exactly when a Strategy row is joined to the bot). -/
def checkBotsStep (cfg : ControllerCfg) (cluster : Cluster)
    (strategies : List StrategyRow) (now : Nat) (acc : TickAcc)
    (bot : BotRow) : TickAcc :=
  if checkBotsCond cfg cluster bot then
    let out := create_bot_core cfg cluster acc.db bot.bot_id none none false
      (versionLt bot.version cfg.cg_version) (checkBotsEnv acc.db strategies bot)
      "" now
    { db := out.db
      ops := acc.ops ++ out.ops
      calls := acc.calls ++
        [{ bot_id := bot.bot_id, update := versionLt bot.version cfg.cg_version, env := checkBotsEnv acc.db strategies bot }] }
  else acc

/-- Controller.check_bots, controller.py lines 95-117: iterate the
snapshot of active rows, threading the session state. -/
def check_bots (cfg : ControllerCfg) (cluster : Cluster) (db : List BotRow)
    (strategies : List StrategyRow) (now : Nat) : TickAcc :=
  (get_active_bots db).foldl (checkBotsStep cfg cluster strategies now)
    { db := db, ops := [], calls := [] }

/-! Operation traces: any interleaving of the reconciler entry points that
touch Bot rows.  Used to state that a tombstone survives every later
call. -/

/-- One top-level reconciler operation. -/
inductive Op
  | create (cluster : Cluster) (bot_id0 : Option String)
      (bot_name0 : Option String) (user : Option Nat)
      (is_strategy update : Bool) (env_vars : EnvMap) (draws : List String)
      (rand_name : String) (now : Nat)
  | deactivate (bot_id : String) (del : Bool) (now : Nat)
  | tick (cluster : Cluster) (strategies : List StrategyRow) (now : Nat)

/-- Database and emitted cluster ops after running one operation. -/
def stepOp (cfg : ControllerCfg) (db : List BotRow) : Op → List BotRow × List K8sOp
  | .create cluster bot_id0 bot_name0 user is_strategy update env draws rand_name now =>
    match create_bot cfg cluster db bot_id0 bot_name0 user is_strategy update
      env draws rand_name now with
    | none => (db, [])
    | some out => (out.db, out.ops)
  | .deactivate bot_id del now =>
    let r := deactivate_bot db bot_id del now
    (r.1, r.2.1)
  | .tick cluster strategies now =>
    let r := check_bots cfg cluster db strategies now
    (r.db, r.ops)

/-- Run a trace of operations, accumulating the emitted cluster ops. -/
def runOps (cfg : ControllerCfg) (db : List BotRow) : List Op → List BotRow × List K8sOp
  | [] => (db, [])
  | op :: rest =>
    let r := stepOp cfg db op
    let r2 := runOps cfg r.1 rest
    (r2.1, r.2 ++ r2.2)

/-! The resource renderer, k8s/resources.py.  `get_coingro_pod` reads the
controller config; crucially, line 85 binds `env` to the very dict
stored under the `cg_env_vars` key, so the `env.update(env_vars)` on
line 87 writes through into the config.  The embedding therefore
returns the pod spec together with the post-call state of the config. -/

/-- Name of the config file the startup command writes
(`coingro.constants.DEFAULT_CONFIG_SAVE`; external constant, the exact
string is irrelevant to the claims). -/
def DEFAULT_CONFIG_SAVE : String := "config_save.json"

/-- Config subdirectory of the user data dir
(`coingro.constants.USERPATH_CONFIG`; external constant). -/
def USERPATH_CONFIG : String := "config"

/-- The controller-config keys `Resources` reads.  `ns` is the config key
for the namespace. -/
structure RConfig where
  cg_image : String
  cg_api_server_port : Nat
  ns : String := "coingro"
  cg_env_vars : Option EnvMap := none
  cg_strategies_pvc_claim : Option String := none
  cguser_group_id : Option Nat := none
deriving DecidableEq, Repr

/-- The rendered pod spec: the fields of the `V1Pod` that
`get_coingro_pod` fills in (pretty-printing whitespace of the embedded
JSON payload is omitted; the claims depend on the payload, not its
layout). -/
structure PodSpec where
  name : String
  labels : EnvMap
  image : String
  command : List String
  args : List String
  env : EnvMap
  volume_claim : String
  fs_group : Nat
  liveness_initial_delay : Nat
  liveness_period : Nat
  liveness_failure_threshold : Nat
deriving DecidableEq, Repr

/-- Resources.get_coingro_pod, k8s/resources.py lines 82-186.  Returns the
spec and the config as it stands after the call (the in-place
`env.update(env_vars)` is visible in the returned config exactly when
the `cg_env_vars` key is present and `env_vars` is truthy). -/
def get_coingro_pod (cfg : RConfig) (name : String)
    (config : List (String × JVal)) (env_vars : EnvMap) : PodSpec × RConfig :=
  let env0 := cfg.cg_env_vars.getD []
  let env := if env_vars.isEmpty then env0 else dictUpdate env0 env_vars
  let cfg1 :=
    if env_vars.isEmpty then cfg
    else
      match cfg.cg_env_vars with
      | some _ => { cfg with cg_env_vars := some env }
      | none => cfg
  let env_list := env ++ [("CG_BOT_ID", name), ("COINGRO__LOGFILE", "default")]
  let user_data_dir :=
    match lookupKey config "user_data_dir" with
    | some (.jstr s) => s
    | _ => "/coingro/user_data"
  let file_path := user_data_dir ++ "/" ++ USERPATH_CONFIG ++ "/" ++ DEFAULT_CONFIG_SAVE
  ({ name := name
     labels := [("name", name), ("run", name), ("app", "coingro-bot"),
       ("creator", "coingro-controller")]
     image := cfg.cg_image
     command := ["/bin/sh", "-c"]
     args := ["printf '" ++ jdump (.jobj config) ++ "' > " ++ file_path ++
       " && coingro trade"]
     env := env_list
     volume_claim := cfg.cg_strategies_pvc_claim.getD "strategies-pvc"
     fs_group := cfg.cguser_group_id.getD 1000
     liveness_initial_delay := 600
     liveness_period := 120
     liveness_failure_threshold := 1 }, cfg1)

/-! Controller.refresh_strategies, controller.py lines 255-299.  The
SQLAlchemy session holds uncommitted field assignments; `commit`
publishes the whole session.  The two REST calls per strategy are
modelled by their parsed payloads, `none` standing for any exception
raised while fetching or reading the payload. -/

/-- Parsed payload of the bot `profit` endpoint (the fields the loop
copies; timestamps in milliseconds as in the source). -/
structure ProfitData where
  profit_all_ratio_mean : ℚ
  profit_all_ratio_sum : ℚ
  profit_all_ratio : ℚ
  first_trade_timestamp : Nat
  latest_trade_timestamp : Nat
  avg_duration : Nat
  winning_trades : Int
  losing_trades : Int
deriving DecidableEq, Repr

/-- One row of a `trade_summary` timescale table (entry 0 is read). -/
structure SummaryPoint where
  rel_profit : ℚ
  trade_count : Int
deriving DecidableEq, Repr

/-- Parsed payload of the bot `trade_summary` endpoint. -/
structure SummaryData where
  daily : SummaryPoint
  weekly : SummaryPoint
  monthly : SummaryPoint
deriving DecidableEq, Repr

/-- The scoped session: in-memory (pending) rows and the last committed
snapshot of each table. -/
structure SessionState where
  bots : List BotRow
  strategies : List StrategyRow
  committed_bots : List BotRow
  committed_strategies : List StrategyRow

/-- Update the strategy row with the given primary key. -/
def setStrategyRow (l : List StrategyRow) (sid : Nat)
    (f : StrategyRow → StrategyRow) : List StrategyRow :=
  l.map (fun s => if s.id = sid then f s else s)

/-- Update the bot row with the given primary key. -/
def setBotRow (l : List BotRow) (bid : Nat) (f : BotRow → BotRow) :
    List BotRow :=
  l.map (fun b => if b.id = bid then f b else b)

/-- The staleness test of line 257: no `latest_refresh`, or more than one
hour (3600 s) old. -/
def staleQ (now : Nat) (s : StrategyRow) : Bool :=
  match s.latest_refresh with
  | none => true
  | some lr => now - lr > 3600

/-- Copy of the `profit` payload into the strategy row
(lines 264-276). -/
def applyProfit (p : ProfitData) (x : StrategyRow) : StrategyRow :=
  { x with
    profit_ratio_mean := p.profit_all_ratio_mean
    profit_ratio_sum := p.profit_all_ratio_sum
    profit_ratio := p.profit_all_ratio
    first_trade := some (p.first_trade_timestamp / 1000)
    latest_trade := some (p.latest_trade_timestamp / 1000)
    avg_duration := some p.avg_duration
    winning_trades := some p.winning_trades
    losing_trades := some p.losing_trades
    trade_count := p.winning_trades + p.losing_trades }

/-- Copy of the `trade_summary` payload and the `latest_refresh` stamp
(lines 278-291). -/
def applySummary (now : Nat) (q : SummaryData) (x : StrategyRow) : StrategyRow :=
  { x with
    daily_profit := q.daily.rel_profit
    daily_trade_count := q.daily.trade_count
    weekly_profit := q.weekly.rel_profit
    weekly_trade_count := q.weekly.trade_count
    monthly_profit := q.monthly.rel_profit
    monthly_trade_count := q.monthly.trade_count
    latest_refresh := some now }

/-- One iteration of the refresh loop for the snapshot row `s`.  A `none`
payload is the exception path: the iteration stops there, commits
nothing, and the loop moves on — but the assignments already made stay
pending in the session. -/
def refreshStep (now : Nat) (st : SessionState) (s : StrategyRow)
    (profit : Option ProfitData) (summary : Option SummaryData) : SessionState :=
  if staleQ now s then
    -- line 261, before the try block: strategy.bot.strategy = strategy.bot.bot_name
    let st1 := { st with
      bots := setBotRow st.bots s.bot_fk (fun b => { b with strategy := some b.bot_name }) }
    match profit with
    | none => st1
    | some p =>
      let st2 := { st1 with strategies := setStrategyRow st1.strategies s.id (applyProfit p) }
      match summary with
      | none => st2
      | some q =>
        let st3 := { st2 with
          strategies := setStrategyRow st2.strategies s.id (applySummary now q) }
        -- Strategy.commit(): publish the whole session
        { st3 with
          committed_bots := st3.bots
          committed_strategies := st3.strategies }
  else st

/-- The refresh loop over the snapshot of active strategies, each paired
with the outcome of its two REST calls. -/
def refreshLoop (now : Nat) (st : SessionState) :
    List (StrategyRow × Option ProfitData × Option SummaryData) → SessionState
  | [] => st
  | (s, p, q) :: rest => refreshLoop now (refreshStep now st s p q) rest

/-- Controller.refresh_strategies: iterate the active strategies computed
from the session at entry. -/
def refresh_strategies (now : Nat) (st : SessionState)
    (outcomes : List (Option ProfitData × Option SummaryData)) : SessionState :=
  refreshLoop now st ((get_active_strategies st.bots st.strategies).zip outcomes)

/-! Concrete fixtures used by counterexamples and witnesses. -/

/-- The row with the given `bot_id` exists and is tombstoned. -/
def TombAt (db : List BotRow) (id : String) : Prop :=
  ∃ b, bot_by_id db id = some b ∧ b.deleted_at.isSome = true

/-- A cluster with no pods at all. -/
def clNone : Cluster := fun _ => none

/-- Controller config fixture. -/
def cfgW : ControllerCfg := { cg_image := "img", cg_version := [1, 0, 0] }

/-- A live (non-tombstoned) bot row. -/
def rowLive : BotRow :=
  { id := 1, bot_id := "coingro01", bot_name := "Bot One", version := [1, 0, 0] }

/-- Database holding only the live row. -/
def dbLive : List BotRow := [rowLive]

/-- A small operation trace: one reconcile tick, then a direct create_bot
for the tombstoned id. -/
def trW : List Op :=
  [Op.tick clNone [] 3,
   Op.create clNone (some "coingro01") none none false false [] [] "Nice Name" 4]

/-- A row occupying one of the random draws. -/
def rowClash : BotRow := { id := 3, bot_id := "bot-c0ffee", bot_name := "Clash" }

/-- Database with the clashing row. -/
def dbClash : List BotRow := [rowClash]

/-- Two hex draws: the first collides with rowClash, the second is free. -/
def drawsW : List String := ["c0ffee", "deadbe"]

/-- Surrogate key and bot_id of every row, in order: the part of the
database that identifies rows for joins. -/
def pkPairs (db : List BotRow) : List (Nat × String) :=
  db.map (fun b => (b.id, b.bot_id))

/-- A strategy bot with no joined Strategy row. -/
def rowStratNoRow : BotRow :=
  { id := 5, bot_id := "strat1", bot_name := "Strat One", is_strategy := true,
    version := [1, 0, 0] }

/-- Database holding only the rowless strategy bot. -/
def dbStratNoRow : List BotRow := [rowStratNoRow]

/-- An outdated strategy bot with a joined Strategy row. -/
def rowStratW : BotRow :=
  { id := 6, bot_id := "strat2", bot_name := "Strat Two", is_strategy := true,
    version := [0, 9] }

/-- The Strategy row joined to rowStratW. -/
def stratRowW : StrategyRow :=
  { id := 1, strategy_name := "Strat Two", bot_fk := 6 }

/-- Database with a strategy bot and a plain bot. -/
def dbStratW : List BotRow := [rowStratW, rowLive]

/-- Strategies fixture. -/
def strategiesW : List StrategyRow := [stratRowW]

/-- Renderer config fixture with a populated cg_env_vars mapping. -/
def rcfgW : RConfig :=
  { cg_image := "img", cg_api_server_port := 8080, cg_env_vars := some [("A", "1")] }

/-- The strategy row with the given primary key, as the session sees it. -/
def sEntry (l : List StrategyRow) (sid : Nat) : Option StrategyRow :=
  l.find? (fun s => s.id = sid)

/-- Active bot backing strategy 1. -/
def stB1 : BotRow := { id := 1, bot_id := "s1", bot_name := "S One" }

/-- Active bot backing strategy 2. -/
def stB2 : BotRow := { id := 2, bot_id := "s2", bot_name := "S Two" }

/-- A stale strategy row (never refreshed). -/
def stS1 : StrategyRow := { id := 1, strategy_name := "S One", bot_fk := 1 }

/-- A second stale strategy row. -/
def stS2 : StrategyRow := { id := 2, strategy_name := "S Two", bot_fk := 2 }

/-- A clean session: committed state equals the in-memory state. -/
def stClean : SessionState :=
  { bots := [stB1, stB2], strategies := [stS1, stS2],
    committed_bots := [stB1, stB2], committed_strategies := [stS1, stS2] }

/-- A deterministic profit payload. -/
def pW : ProfitData :=
  { profit_all_ratio_mean := 5, profit_all_ratio_sum := 6, profit_all_ratio := 7,
    first_trade_timestamp := 1000000, latest_trade_timestamp := 2000000,
    avg_duration := 60, winning_trades := 3, losing_trades := 2 }

/-- A deterministic trade-summary payload. -/
def qW : SummaryData :=
  { daily := { rel_profit := 1, trade_count := 2 },
    weekly := { rel_profit := 3, trade_count := 4 },
    monthly := { rel_profit := 5, trade_count := 6 } }

/-- Outcomes: strategy 1 fails at trade_summary after profit succeeded;
strategy 2 succeeds fully and commits. -/
def outsCE : List (Option ProfitData × Option SummaryData) :=
  [(some pW, none), (some pW, some qW)]

/-- A session where strategy 1 is fresh and strategy 2 is stale. -/
def stMixed : SessionState :=
  { bots := [stB1, stB2],
    strategies := [{ stS1 with latest_refresh := some 9000 }, stS2],
    committed_bots := [stB1, stB2],
    committed_strategies := [{ stS1 with latest_refresh := some 9000 }, stS2] }

/-- Outcomes where both strategies would succeed. -/
def outsOK : List (Option ProfitData × Option SummaryData) :=
  [(some pW, some qW), (some pW, some qW)]

/-- An active but tombstoned bot row. -/
def rowTomb : BotRow :=
  { id := 1, bot_id := "coingro01", bot_name := "Bot One", is_active := true,
    version := [1, 0, 0], deleted_at := some 7 }

/-- Database holding only the active tombstoned row. -/
def dbTomb : List BotRow := [rowTomb]

/-- Users fixture: one user-role principal and one admin. -/
def usersW : List UserRow := [{ id := 1, role := .user }, { id := 2, role := .admin }]

/-- Bot owned by user 1. -/
def rowB1 : BotRow := { id := 10, bot_id := "b1", bot_name := "B One", user_id := some 1 }

/-- Bot with no owner. -/
def rowB2 : BotRow := { id := 11, bot_id := "b2", bot_name := "B Two" }

/-- Tombstoned bot. -/
def rowB3 : BotRow :=
  { id := 12, bot_id := "b3", bot_name := "B Three", deleted_at := some 4 }

/-- Bots fixture. -/
def botsW : List BotRow := [rowB1, rowB2, rowB3]

/-! Lemmas about the dict model. -/

theorem lookupKey_cons {α : Type} (p : String × α) (m : List (String × α)) (j : String) :
    lookupKey (p :: m) j = if p.1 = j then some p.2 else lookupKey m j := by
  by_cases h : p.1 = j
  · rw [if_pos h]; unfold lookupKey
    rw [List.find?_cons_of_pos _ (by simpa using h)]
    rfl
  · rw [if_neg h]; unfold lookupKey
    rw [List.find?_cons_of_neg _ (by simpa using h)]

theorem lookupKey_nil {α : Type} (j : String) :
    lookupKey ([] : List (String × α)) j = none := rfl

theorem keyMem_eq_isSome_lookupKey {α : Type} (m : List (String × α)) (k : String) :
    keyMem m k = (lookupKey m k).isSome := by
  induction m with
  | nil => rfl
  | cons p m ih =>
    simp only [keyMem, List.any_cons, lookupKey_cons]
    by_cases hp : p.1 = k
    · simp [hp]
    · simp only [hp, decide_False, Bool.false_or, if_neg hp]
      exact ih

theorem lookupKey_append {α : Type} (m1 m2 : List (String × α)) (j : String) :
    lookupKey (m1 ++ m2) j =
      (lookupKey m1 j).elim (lookupKey m2 j) (fun v => some v) := by
  induction m1 with
  | nil => simp [lookupKey_nil]
  | cons p m ih =>
    rw [List.cons_append, lookupKey_cons, lookupKey_cons]
    by_cases hp : p.1 = j
    · simp [hp]
    · simp [hp, ih]

theorem lookupKey_map_set {α : Type} (m : List (String × α)) (k j : String) (v : α) :
    lookupKey (m.map (fun p => if p.1 = k then (k, v) else p)) j =
      if j = k then (lookupKey m k).map (fun _ => v) else lookupKey m j := by
  induction m with
  | nil => by_cases hj : j = k <;> simp [lookupKey_nil, hj]
  | cons p m ih =>
    by_cases hp : p.1 = k
    · by_cases hj : j = k
      · subst hj; simp [List.map_cons, lookupKey_cons, hp, ih]
      · have hkj : ¬(k = j) := fun h => hj h.symm
        have hpj : ¬(p.1 = j) := by rw [hp]; exact hkj
        simp [List.map_cons, lookupKey_cons, hp, hj, hkj, hpj, ih]
    · by_cases hj : j = k
      · subst hj; simp [List.map_cons, lookupKey_cons, hp, ih]
      · by_cases hpj : p.1 = j
        · simp [List.map_cons, lookupKey_cons, hp, hj, hpj]
        · simp [List.map_cons, lookupKey_cons, hp, hj, hpj, ih]

theorem lookupKey_dictSet_self {α : Type} (m : List (String × α)) (k : String) (v : α) :
    lookupKey (dictSet m k v) k = some v := by
  unfold dictSet
  by_cases h : keyMem m k
  · rw [if_pos h, lookupKey_map_set, if_pos rfl]
    rw [keyMem_eq_isSome_lookupKey] at h
    cases hv : lookupKey m k with
    | none => rw [hv] at h; simp at h
    | some w => simp
  · rw [if_neg h, lookupKey_append]
    rw [keyMem_eq_isSome_lookupKey] at h
    cases hv : lookupKey m k with
    | none => simp [lookupKey_cons]
    | some w => rw [hv] at h; simp at h

theorem lookupKey_dictSet_ne {α : Type} (m : List (String × α)) (k j : String) (v : α)
    (hj : j ≠ k) : lookupKey (dictSet m k v) j = lookupKey m j := by
  unfold dictSet
  by_cases h : keyMem m k
  · rw [if_pos h, lookupKey_map_set, if_neg hj]
  · rw [if_neg h, lookupKey_append]
    have hkj : ¬(k = j) := fun h => hj (Eq.symm h)
    cases hv : lookupKey m j with
    | none => simp [lookupKey_cons, lookupKey_nil, hkj]
    | some w => simp

/-! Claim C9: the throttle law. -/

/-- C9: for every throttled call, when the wrapped function returns after
`t` seconds the supervisor sleeps exactly `max (throttle_secs - t) 0`
further seconds, hands back the function's result unchanged, and the
wall time of the whole throttled iteration is at least
`process_throttle_secs`. -/
theorem C9_throttle_law {α : Type} (throttle_secs t : ℚ) (r : α) :
    (throttleCall throttle_secs t r).sleep_duration = max (throttle_secs - t) 0 ∧
    (throttleCall throttle_secs t r).result = r ∧
    throttle_secs ≤ (throttleCall throttle_secs t r).elapsed := by
  refine ⟨rfl, rfl, ?_⟩
  have h : throttle_secs - t ≤ max (throttle_secs - t) 0 := le_max_left _ _
  show throttle_secs ≤ t + max (throttle_secs - t) 0
  linarith

/-! Claim C6: serialization of the configuration blob. -/

/-- C6: serializing a configuration dict whose `max_open_trades` entry is
positive infinity produces the JSON of the same dict with that entry
replaced by `-1`: the replacement stores `-1` under `max_open_trades`
and leaves the value of every other key unchanged, and the resulting
object is dumped as ordinary JSON. -/
theorem C6_serializer_maps_inf_to_neg_one (kvs : List (String × JVal))
    (h : lookupKey kvs "max_open_trades" = some (.jnum .inf)) :
    custom_serializer (.jobj kvs) =
      jdump (.jobj (dictSet kvs "max_open_trades" (.jnum (.int (-1))))) ∧
    lookupKey (dictSet kvs "max_open_trades" (.jnum (.int (-1)))) "max_open_trades" =
      some (.jnum (.int (-1))) ∧
    ∀ j, j ≠ "max_open_trades" →
      lookupKey (dictSet kvs "max_open_trades" (.jnum (.int (-1)))) j =
        lookupKey kvs j := by
  refine ⟨?_, lookupKey_dictSet_self _ _ _, fun j hj => lookupKey_dictSet_ne _ _ _ _ hj⟩
  have hdef : custom_serializer (.jobj kvs) =
      (match lookupKey kvs "max_open_trades" with
        | some (.jnum .inf) =>
          jdump (.jobj (dictSet kvs "max_open_trades" (.jnum (.int (-1)))))
        | _ => jdump (.jobj kvs)) := rfl
  rw [hdef, h]

/-- Witness for C6 at a concrete configuration blob. -/
theorem C6_serializer_witness :
    custom_serializer (.jobj [("max_open_trades", .jnum .inf), ("dry_run", .jbool true)]) =
      jdump (.jobj (dictSet [("max_open_trades", JVal.jnum .inf), ("dry_run", .jbool true)]
        "max_open_trades" (.jnum (.int (-1))))) ∧
    lookupKey (dictSet [("max_open_trades", JVal.jnum .inf), ("dry_run", .jbool true)]
      "max_open_trades" (.jnum (.int (-1)))) "max_open_trades" = some (.jnum (.int (-1))) ∧
    ∀ j, j ≠ "max_open_trades" →
      lookupKey (dictSet [("max_open_trades", JVal.jnum .inf), ("dry_run", .jbool true)]
        "max_open_trades" (.jnum (.int (-1)))) j =
        lookupKey [("max_open_trades", JVal.jnum .inf), ("dry_run", .jbool true)] j :=
  C6_serializer_maps_inf_to_neg_one
    [("max_open_trades", .jnum .inf), ("dry_run", .jbool true)] rfl

/-! Claims C8 and C10: per-bot request authorization. -/

/-- C8: resolving the user and bot for a proxied endpoint gives 404 when
the userid header is missing or unknown, 404 when the bot is missing
or tombstoned, 401 when a user-role caller does not own the bot, and
otherwise yields the bot row to the handler. -/
theorem C8_get_bot_authorization (users : List UserRow) (bots : List BotRow)
    (uid : Option Nat) (botid : String) :
    (user_by_id users uid = none →
      get_bot users bots uid botid = .error .notFound) ∧
    (∀ u, user_by_id users uid = some u → bot_by_id bots botid = none →
      get_bot users bots uid botid = .error .notFound) ∧
    (∀ u b, user_by_id users uid = some u → bot_by_id bots botid = some b →
      b.deleted_at.isSome = true →
      get_bot users bots uid botid = .error .notFound) ∧
    (∀ u b, user_by_id users uid = some u → bot_by_id bots botid = some b →
      b.deleted_at = none → u.role = Role.user → b.user_id ≠ some u.id →
      get_bot users bots uid botid = .error .unauthorized) ∧
    (∀ u b, user_by_id users uid = some u → bot_by_id bots botid = some b →
      b.deleted_at = none → (u.role = Role.user → b.user_id = some u.id) →
      get_bot users bots uid botid = .ok b) := by
  refine ⟨fun h => ?_, fun u hu hb => ?_, fun u b hu hb hd => ?_,
    fun u b hu hb hd hr ho => ?_, fun u b hu hb hd ho => ?_⟩
  · simp [get_bot, get_user, bind, Except.bind, h]
  · simp [get_bot, get_user, bind, Except.bind, hu, hb]
  · simp [get_bot, get_user, bind, Except.bind, hu, hb, hd]
  · have : b.deleted_at.isSome = false := by rw [hd]; rfl
    simp [get_bot, get_user, bind, Except.bind, hu, hb, this, hr, ho]
  · have hds : b.deleted_at.isSome = false := by rw [hd]; rfl
    have hcond : ¬(u.role = Role.user ∧ b.user_id ≠ some u.id) := by
      rintro ⟨h1, h2⟩; exact h2 (ho h1)
    simp [get_bot, get_user, bind, Except.bind, hu, hb, hds, hcond]

/-- C10: only the user role is ownership-restricted; an admin or
superadmin caller resolving any existing non-tombstoned bot is never
rejected with 401, and a 401 can only arise for a caller whose role is
user. -/
theorem C10_only_user_role_restricted (users : List UserRow) (bots : List BotRow)
    (uid : Option Nat) (botid : String) :
    (∀ u b, user_by_id users uid = some u →
      (u.role = Role.admin ∨ u.role = Role.superadmin) →
      bot_by_id bots botid = some b → b.deleted_at = none →
      get_bot users bots uid botid = .ok b) ∧
    (get_bot users bots uid botid = .error .unauthorized →
      ∃ u, user_by_id users uid = some u ∧ u.role = Role.user) := by
  constructor
  · intro u b hu hr hb hd
    have hds : b.deleted_at.isSome = false := by rw [hd]; rfl
    have hru : u.role ≠ Role.user := by
      rcases hr with h | h <;> rw [h] <;> intro hc <;> cases hc
    have hcond : ¬(u.role = Role.user ∧ b.user_id ≠ some u.id) := by
      rintro ⟨h1, _⟩; exact hru h1
    simp [get_bot, get_user, bind, Except.bind, hu, hb, hds, hcond]
  · intro h
    cases hu : user_by_id users uid with
    | none => simp [get_bot, get_user, bind, Except.bind, hu] at h
    | some u =>
      refine ⟨u, rfl, ?_⟩
      cases hb : bot_by_id bots botid with
      | none => simp [get_bot, get_user, bind, Except.bind, hu, hb] at h
      | some b =>
        by_cases hd : b.deleted_at.isSome = true
        · simp [get_bot, get_user, bind, Except.bind, hu, hb, hd] at h
        · by_cases hc : u.role = Role.user ∧ b.user_id ≠ some u.id
          · exact hc.1
          · simp [get_bot, get_user, bind, Except.bind, hu, hb, hd, hc] at h

/-- Witness for C8: all four error shapes and the success shape at
concrete requests. -/
theorem C8_get_bot_authorization_witness :
    get_bot usersW botsW none "b1" = .error .notFound ∧
    get_bot usersW botsW (some 9) "b1" = .error .notFound ∧
    get_bot usersW botsW (some 1) "zz" = .error .notFound ∧
    get_bot usersW botsW (some 1) "b3" = .error .notFound ∧
    get_bot usersW botsW (some 1) "b2" = .error .unauthorized ∧
    get_bot usersW botsW (some 1) "b1" = .ok rowB1 :=
  ⟨(C8_get_bot_authorization usersW botsW none "b1").1 rfl,
   (C8_get_bot_authorization usersW botsW (some 9) "b1").1 rfl,
   (C8_get_bot_authorization usersW botsW (some 1) "zz").2.1 _ rfl rfl,
   (C8_get_bot_authorization usersW botsW (some 1) "b3").2.2.1 _ rowB3 rfl rfl rfl,
   (C8_get_bot_authorization usersW botsW (some 1) "b2").2.2.2.1 _ rowB2 rfl rfl rfl rfl
     (by intro h; cases h),
   (C8_get_bot_authorization usersW botsW (some 1) "b1").2.2.2.2 _ rowB1 rfl rfl rfl
     (fun _ => rfl)⟩

/-- Witness for C10: the admin reaches a bot it does not own, and the
one 401 in the fixtures comes from the user-role caller. -/
theorem C10_only_user_role_restricted_witness :
    get_bot usersW botsW (some 2) "b2" = .ok rowB2 ∧
    ∃ u, user_by_id usersW (some 1) = some u ∧ u.role = Role.user :=
  ⟨(C10_only_user_role_restricted usersW botsW (some 2) "b2").1 _ rowB2 rfl
      (Or.inl rfl) rfl rfl,
   (C10_only_user_role_restricted usersW botsW (some 1) "b2").2 (by rfl)⟩

/-! Lemmas about row lookup and the tombstone invariant. -/

theorem bot_by_id_cons (r : BotRow) (db : List BotRow) (id : String) :
    bot_by_id (r :: db) id = if r.bot_id = id then some r else bot_by_id db id := by
  by_cases h : r.bot_id = id
  · rw [if_pos h]; unfold bot_by_id
    rw [List.find?_cons_of_pos _ (by simpa using h)]
  · rw [if_neg h]; unfold bot_by_id
    rw [List.find?_cons_of_neg _ (by simpa using h)]

theorem bot_by_id_eq_of_some {db : List BotRow} {id : String} {b : BotRow}
    (h : bot_by_id db id = some b) : b.bot_id = id := by
  have := List.find?_some h
  simpa using this

theorem bot_by_id_update (db : List BotRow) (target : String) (b1 : BotRow)
    (hb1 : b1.bot_id = target) (id : String) :
    bot_by_id (db.map (fun r => if r.bot_id = target then b1 else r)) id =
      (bot_by_id db id).map (fun r => if r.bot_id = target then b1 else r) := by
  induction db with
  | nil => rfl
  | cons r db ih =>
    rw [List.map_cons, bot_by_id_cons, bot_by_id_cons]
    by_cases hr : r.bot_id = target
    · by_cases hid : r.bot_id = id
      · rw [if_pos hr, if_pos (hb1.trans (hr.symm.trans hid)), if_pos hid]
        simp [hr]
      · rw [if_pos hr, if_neg (fun h : b1.bot_id = id => hid (hr.trans ((hb1.symm.trans h) ▸ rfl)))]
        · rw [if_neg hid, ih]
    · by_cases hid : r.bot_id = id
      · rw [if_neg hr, if_pos hid, if_pos hid]
        simp [hr]
      · rw [if_neg hr, if_neg hid, if_neg hid, ih]

theorem bot_by_id_append_left {db : List BotRow} {id : String} {b : BotRow}
    (h : bot_by_id db id = some b) (l : List BotRow) :
    bot_by_id (db ++ l) id = some b := by
  unfold bot_by_id at *
  rw [List.find?_append, h]
  rfl

theorem TombAt_update {db : List BotRow} {id : String} (target : String)
    (b1 : BotRow) (hb1 : b1.bot_id = target)
    (hcase : target = id → b1.deleted_at.isSome = true)
    (h : TombAt db id) :
    TombAt (db.map (fun r => if r.bot_id = target then b1 else r)) id := by
  obtain ⟨b, hb, hd⟩ := h
  rw [TombAt]
  rw [bot_by_id_update db target b1 hb1 id, hb]
  by_cases ht : b.bot_id = target
  · exact ⟨b1, by simp [ht], hcase ((bot_by_id_eq_of_some hb) ▸ ht.symm ▸ rfl)⟩
  · exact ⟨b, by simp [ht], hd⟩

theorem TombAt_append {db : List BotRow} {id : String} (l : List BotRow)
    (h : TombAt db id) : TombAt (db ++ l) id := by
  obtain ⟨b, hb, hd⟩ := h
  exact ⟨b, bot_by_id_append_left hb l, hd⟩

/-! Case characterizations of create_bot_core. -/

theorem create_core_deleted {cfg : ControllerCfg} {cluster : Cluster}
    {db : List BotRow} {bot_id0 : String} {b : BotRow}
    (hfind : bot_by_id db (lower bot_id0) = some b)
    (hd : b.deleted_at.isSome = true)
    (bot_name0 : Option String) (user : Option Nat) (is_strategy update : Bool)
    (env_vars : EnvMap) (rand_name : String) (now : Nat) :
    create_bot_core cfg cluster db bot_id0 bot_name0 user is_strategy update
      env_vars rand_name now =
      { db := db, ops := [], bot_id := b.bot_id, bot_name := b.bot_name } := by
  simp only [create_bot_core]
  rw [hfind]
  simp [hd]

theorem create_core_active {cfg : ControllerCfg} {cluster : Cluster}
    {db : List BotRow} {bot_id0 : String} {b : BotRow}
    (hfind : bot_by_id db (lower bot_id0) = some b)
    (hd : b.deleted_at.isSome = false)
    (bot_name0 : Option String) (user : Option Nat) (is_strategy update : Bool)
    (env_vars : EnvMap) (rand_name : String) (now : Nat) :
    create_bot_core cfg cluster db bot_id0 bot_name0 user is_strategy update
      env_vars rand_name now =
      { db := db.map (fun r => if r.bot_id = lower bot_id0 then
            writeBack cfg update now (activeConfig cfg bot_name0 b) (lower bot_id0) b
          else r)
        ops := renderOps cluster (lower bot_id0) (activeConfig cfg bot_name0 b)
          (activeEnv env_vars bot_name0 b)
        bot_id := b.bot_id
        bot_name := b.bot_name } := by
  simp only [create_bot_core]
  rw [hfind]
  simp [hd, writeBack]

theorem create_core_new {cfg : ControllerCfg} {cluster : Cluster}
    {db : List BotRow} {bot_id0 : String}
    (hfind : bot_by_id db (lower bot_id0) = none)
    (bot_name0 : Option String) (user : Option Nat) (is_strategy update : Bool)
    (env_vars : EnvMap) (rand_name : String) (now : Nat) :
    create_bot_core cfg cluster db bot_id0 bot_name0 user is_strategy update
      env_vars rand_name now =
      { db := db ++ [newRow cfg (lower bot_id0) (bot_name0.getD rand_name) user
          is_strategy (JVal.jobj (dictSet cfg.default_bot_config "bot_name"
            (.jstr (bot_name0.getD rand_name)))) now db]
        ops := renderOps cluster (lower bot_id0)
          (JVal.jobj (dictSet cfg.default_bot_config "bot_name"
            (.jstr (bot_name0.getD rand_name))))
          (dictSet env_vars "COINGRO__BOT_NAME" (bot_name0.getD rand_name))
        bot_id := lower bot_id0
        bot_name := bot_name0.getD rand_name } := by
  simp only [create_bot_core]
  rw [hfind]

theorem renderOps_no_other_pod {cluster : Cluster} {bid : String} {c : JVal}
    {env : EnvMap} {id : String} (hne : bid ≠ id) :
    ∀ op ∈ renderOps cluster bid c env, op.buildsPod id = false := by
  intro op hop
  unfold renderOps at hop
  cases hcl : cluster bid <;> rw [hcl] at hop <;>
    simp only [List.mem_singleton] at hop <;> subst hop <;>
    simp [K8sOp.buildsPod, hne]

/-- create_bot_core never un-tombstones a row and never creates or
replaces a pod named like a tombstoned row. -/
theorem create_core_tomb {cfg : ControllerCfg} {cluster : Cluster}
    {db : List BotRow} {id : String} (h : TombAt db id)
    (bot_id0 : String) (bot_name0 : Option String) (user : Option Nat)
    (is_strategy update : Bool) (env_vars : EnvMap) (rand_name : String)
    (now : Nat) :
    TombAt (create_bot_core cfg cluster db bot_id0 bot_name0 user is_strategy
      update env_vars rand_name now).db id ∧
    ∀ op ∈ (create_bot_core cfg cluster db bot_id0 bot_name0 user is_strategy
      update env_vars rand_name now).ops, op.buildsPod id = false := by
  obtain ⟨b0, hb0, hd0⟩ := h
  cases hfind : bot_by_id db (lower bot_id0) with
  | some b =>
    cases hd : b.deleted_at.isSome with
    | true =>
      rw [create_core_deleted hfind hd]
      exact ⟨⟨b0, hb0, hd0⟩, by intro op hop; cases hop⟩
    | false =>
      have hne : lower bot_id0 ≠ id := by
        intro he
        rw [he, hb0] at hfind
        cases hfind
        rw [hd0] at hd
        cases hd
      rw [create_core_active hfind hd]
      refine ⟨TombAt_update (lower bot_id0)
          (writeBack cfg update now (activeConfig cfg bot_name0 b) (lower bot_id0) b)
          ?_ (fun he => absurd he hne) ⟨b0, hb0, hd0⟩,
        renderOps_no_other_pod hne⟩
      show (writeBack cfg update now (activeConfig cfg bot_name0 b)
        (lower bot_id0) b).bot_id = lower bot_id0
      simpa [writeBack] using bot_by_id_eq_of_some hfind
  | none =>
    have hne : lower bot_id0 ≠ id := by
      intro he
      rw [he, hb0] at hfind
      cases hfind
    rw [create_core_new hfind]
    exact ⟨TombAt_append _ ⟨b0, hb0, hd0⟩, renderOps_no_other_pod hne⟩

/-- deactivate_bot never clears a tombstone and issues only deletes. -/
theorem deactivate_tomb {db : List BotRow} {id : String} (h : TombAt db id)
    (bot_id : String) (del : Bool) (now : Nat) :
    TombAt (deactivate_bot db bot_id del now).1 id ∧
    ∀ op ∈ (deactivate_bot db bot_id del now).2.1, op.buildsPod id = false := by
  obtain ⟨b0, hb0, hd0⟩ := h
  unfold deactivate_bot
  cases hfind : bot_by_id db bot_id with
  | none => exact ⟨⟨b0, hb0, hd0⟩, by intro op hop; cases hop⟩
  | some b =>
    refine ⟨TombAt_update bot_id
        { b with is_active := false, deleted_at := if del then some now else b.deleted_at }
        (by show b.bot_id = bot_id; exact bot_by_id_eq_of_some hfind) ?_ ⟨b0, hb0, hd0⟩, ?_⟩
    · intro he
      cases del
      · have hbb : b0 = b := by
          rw [he] at hfind
          rw [hb0] at hfind
          exact Option.some.inj hfind
        cases hbb
        simpa using hd0
      · simp
    · intro op hop
      simp only [List.mem_singleton] at hop
      subst hop
      rfl
/-- One check_bots iteration preserves the tombstone invariant and emits
no pod build for a tombstoned id. -/
theorem checkBotsStep_tomb {cfg : ControllerCfg} {cluster : Cluster}
    {strategies : List StrategyRow} {now : Nat} {acc : TickAcc} {id : String}
    (h : TombAt acc.db id ∧ ∀ op ∈ acc.ops, op.buildsPod id = false)
    (bot : BotRow) :
    TombAt (checkBotsStep cfg cluster strategies now acc bot).db id ∧
    ∀ op ∈ (checkBotsStep cfg cluster strategies now acc bot).ops,
      op.buildsPod id = false := by
  have hc := @create_core_tomb cfg cluster acc.db id h.1 bot.bot_id none none false
    (versionLt bot.version cfg.cg_version) (checkBotsEnv acc.db strategies bot)
    "" now
  unfold checkBotsStep
  by_cases hcond : checkBotsCond cfg cluster bot = true
  · rw [if_pos hcond]
    refine ⟨hc.1, ?_⟩
    intro op hop
    cases List.mem_append.mp hop with
    | inl hl => exact h.2 op hl
    | inr hr => exact hc.2 op hr
  · rw [if_neg hcond]
    exact h

/-- Folding check_bots iterations preserves the tombstone invariant. -/
theorem foldl_checkBots_tomb {cfg : ControllerCfg} {cluster : Cluster}
    {strategies : List StrategyRow} {now : Nat} {id : String}
    (l : List BotRow) (acc : TickAcc)
    (h : TombAt acc.db id ∧ ∀ op ∈ acc.ops, op.buildsPod id = false) :
    TombAt (l.foldl (checkBotsStep cfg cluster strategies now) acc).db id ∧
    ∀ op ∈ (l.foldl (checkBotsStep cfg cluster strategies now) acc).ops,
      op.buildsPod id = false := by
  induction l generalizing acc with
  | nil => exact h
  | cons bot l ih => exact ih _ (checkBotsStep_tomb h bot)

/-- check_bots preserves the tombstone invariant and emits no pod build
for a tombstoned id. -/
theorem check_bots_tomb {cfg : ControllerCfg} {cluster : Cluster}
    {db : List BotRow} {strategies : List StrategyRow} {now : Nat} {id : String}
    (h : TombAt db id) :
    TombAt (check_bots cfg cluster db strategies now).db id ∧
    ∀ op ∈ (check_bots cfg cluster db strategies now).ops,
      op.buildsPod id = false :=
  foldl_checkBots_tomb _ _ ⟨h, by intro op hop; cases hop⟩

/-- Any single reconciler operation preserves the tombstone invariant and
emits no pod build for a tombstoned id. -/
theorem stepOp_tomb {cfg : ControllerCfg} {db : List BotRow} {id : String}
    (h : TombAt db id) (op : Op) :
    TombAt (stepOp cfg db op).1 id ∧
    ∀ o ∈ (stepOp cfg db op).2, o.buildsPod id = false := by
  cases op with
  | create cluster bot_id0 bot_name0 user is_strategy update env draws rand_name now =>
    cases bot_id0 with
    | some bid =>
      simpa [stepOp, create_bot] using
        create_core_tomb h bid bot_name0 user is_strategy update env rand_name now
    | none =>
      cases hg : gen_bot_id db draws with
      | none =>
        simp only [stepOp, create_bot, hg, Option.map_none']
        exact ⟨h, by intro o ho; cases ho⟩
      | some bid =>
        simpa [stepOp, create_bot, hg] using
          create_core_tomb h bid bot_name0 user is_strategy update env rand_name now
  | deactivate bid del now =>
    simpa [stepOp] using deactivate_tomb h bid del now
  | tick cluster strategies now =>
    simpa [stepOp] using check_bots_tomb h

/-- An arbitrary trace of reconciler operations preserves the tombstone
invariant and never builds a pod named like a tombstoned row. -/
theorem runOps_tomb {cfg : ControllerCfg} {db : List BotRow} {id : String}
    (h : TombAt db id) (tr : List Op) :
    TombAt (runOps cfg db tr).1 id ∧
    ∀ op ∈ (runOps cfg db tr).2, op.buildsPod id = false := by
  induction tr generalizing db with
  | nil => exact ⟨h, by intro op hop; cases hop⟩
  | cons op tr ih =>
    have h1 := @stepOp_tomb cfg db id h op
    have h2 := ih h1.1
    refine ⟨h2.1, ?_⟩
    intro o ho
    simp only [runOps, List.mem_append] at ho
    cases ho with
    | inl hl => exact h1.2 o hl
    | inr hr => exact h2.2 o hr

/-- deactivate_bot with delete=true stamps the tombstone on an existing
row. -/
theorem deactivate_sets_tomb {db : List BotRow} {id : String} {b : BotRow}
    (hfind : bot_by_id db id = some b) (now0 : Nat) :
    TombAt (deactivate_bot db id true now0).1 id := by
  unfold deactivate_bot
  rw [hfind]
  refine ⟨{ b with is_active := false, deleted_at := if true then some now0 else b.deleted_at }, ?_, by simp⟩
  rw [bot_by_id_update db id _ (by show b.bot_id = id; exact bot_by_id_eq_of_some hfind) id,
    hfind]
  simp [bot_by_id_eq_of_some hfind]

/-! Claim C1: tombstoning is permanent. -/

/-- C1: after deactivate_bot(id, delete=true) has stamped `deleted_at` on
the row, no later trace of reconciler operations (create_bot calls,
deactivations, check_bots ticks, in any interleaving and against any
cluster state) ever creates or replaces a pod named `id`; the
tombstone survives the whole trace, and a later create_bot for `id`
leaves the database untouched, issues no cluster operation, and
returns the stored row's `(bot_id, bot_name)`. -/
theorem C1_tombstone_permanent (cfg : ControllerCfg) (db : List BotRow)
    (id : String) (b : BotRow) (now0 : Nat)
    (hfind : bot_by_id db id = some b) (hlow : lower id = id)
    (tr : List Op) :
    (∀ op ∈ (runOps cfg (deactivate_bot db id true now0).1 tr).2,
      op.buildsPod id = false) ∧
    ∃ b2, bot_by_id (runOps cfg (deactivate_bot db id true now0).1 tr).1 id = some b2 ∧
      b2.deleted_at.isSome = true ∧
      ∀ (cluster : Cluster) (bot_name0 : Option String) (user : Option Nat)
        (is_strategy update : Bool) (env_vars : EnvMap) (rand_name : String)
        (now : Nat),
        create_bot_core cfg cluster (runOps cfg (deactivate_bot db id true now0).1 tr).1
          id bot_name0 user is_strategy update env_vars rand_name now =
          { db := (runOps cfg (deactivate_bot db id true now0).1 tr).1,
            ops := [], bot_id := b2.bot_id, bot_name := b2.bot_name } := by
  have h1 : TombAt (deactivate_bot db id true now0).1 id :=
    deactivate_sets_tomb hfind now0
  have h2 := @runOps_tomb cfg (deactivate_bot db id true now0).1 id h1 tr
  obtain ⟨b2, hb2, hd2⟩ := h2.1
  refine ⟨h2.2, b2, hb2, hd2, ?_⟩
  intro cluster bot_name0 user is_strategy update env_vars rand_name now
  have hfind2 : bot_by_id (runOps cfg (deactivate_bot db id true now0).1 tr).1
      (lower id) = some b2 := by rw [hlow]; exact hb2
  exact create_core_deleted hfind2 hd2 bot_name0 user is_strategy update
    env_vars rand_name now

/-- Witness for C1: a concrete live row is tombstoned, a tick plus a
direct create_bot runs, and the conclusion holds as stated. -/
theorem C1_tombstone_permanent_witness :
    (∀ op ∈ (runOps cfgW (deactivate_bot dbLive "coingro01" true 0).1 trW).2,
      op.buildsPod "coingro01" = false) ∧
    ∃ b2, bot_by_id (runOps cfgW (deactivate_bot dbLive "coingro01" true 0).1 trW).1
        "coingro01" = some b2 ∧
      b2.deleted_at.isSome = true ∧
      ∀ (cluster : Cluster) (bot_name0 : Option String) (user : Option Nat)
        (is_strategy update : Bool) (env_vars : EnvMap) (rand_name : String)
        (now : Nat),
        create_bot_core cfgW cluster
          (runOps cfgW (deactivate_bot dbLive "coingro01" true 0).1 trW).1
          "coingro01" bot_name0 user is_strategy update env_vars rand_name now =
          { db := (runOps cfgW (deactivate_bot dbLive "coingro01" true 0).1 trW).1,
            ops := [], bot_id := b2.bot_id, bot_name := b2.bot_name } :=
  C1_tombstone_permanent cfgW dbLive "coingro01" rowLive 0 (by rfl) (by rfl) trW

/-! Claim C3: the active-bots query. -/

/-- C3 counterexample: get_active_bots does not filter on `deleted_at`;
on a database whose single row is active but tombstoned it returns
that row, while the claimed filter returns nothing. -/
theorem C3_counterexample :
    get_active_bots dbTomb ≠
      dbTomb.filter (fun b => b.is_active && b.deleted_at.isNone) := by
  intro h
  have h1 : (get_active_bots dbTomb).length = 1 := rfl
  have h2 : (dbTomb.filter (fun b => b.is_active && b.deleted_at.isNone)).length = 0 := rfl
  rw [h, h2] at h1
  cases h1

/-- C3 amended: get_active_bots returns exactly the rows with
`is_active = true`, tombstoned or not — so check_bots may iterate a
tombstoned bot — but the tombstone guard in create_bot keeps any such
iteration from creating or replacing a pod named after a tombstoned
row. -/
theorem C3_active_bots_amended (db : List BotRow) :
    (∀ b, b ∈ get_active_bots db ↔ b ∈ db ∧ b.is_active = true) ∧
    (∀ id b, bot_by_id db id = some b → b.deleted_at.isSome = true →
      ∀ (cfg : ControllerCfg) (cluster : Cluster)
        (strategies : List StrategyRow) (now : Nat),
        ∀ op ∈ (check_bots cfg cluster db strategies now).ops,
          op.buildsPod id = false) := by
  constructor
  · intro b
    simp [get_active_bots, List.mem_filter]
  · intro id b hfind hd cfg cluster strategies now
    exact (check_bots_tomb ⟨b, hfind, hd⟩).2

/-- Witness for C3: on the concrete tombstoned database a tick emits no
create or replace for the tombstoned id, yet the row is iterated. -/
theorem C3_active_bots_amended_witness :
    (rowTomb ∈ get_active_bots dbTomb ↔ rowTomb ∈ dbTomb ∧ rowTomb.is_active = true) ∧
    ∀ op ∈ (check_bots cfgW clNone dbTomb [] 5).ops,
      op.buildsPod "coingro01" = false :=
  ⟨(C3_active_bots_amended dbTomb).1 rowTomb,
   (C3_active_bots_amended dbTomb).2 "coingro01" rowTomb (by rfl) (by rfl)
     cfgW clNone [] 5⟩

/-! Claim C2: fresh random bot ids never collide. -/

theorem gen_bot_id_fresh {db : List BotRow} {draws : List String} {bid : String}
    (h : gen_bot_id db draws = some bid) :
    bot_by_id db bid = none ∧ ∃ d ∈ draws, bid = "bot-" ++ d := by
  induction draws with
  | nil => cases h
  | cons uid rest ih =>
    simp only [gen_bot_id] at h
    cases hf : bot_by_id db ("bot-" ++ uid) with
    | some b =>
      rw [hf] at h
      obtain ⟨h1, d, hd, he⟩ := ih h
      exact ⟨h1, d, List.mem_cons_of_mem _ hd, he⟩
    | none =>
      rw [hf] at h
      have hbid : "bot-" ++ uid = bid := Option.some.inj h
      subst hbid
      exact ⟨hf, uid, List.mem_cons_self _ _, rfl⟩

/-- C2: create_bot with no bot_id draws ids of the form `bot-<hex>`,
redraws while the draw collides with an existing row, and lowercases
the final id (an identity on the lowercase hex draws), so whenever the
loop terminates the inserted row's id differs from every existing
row's bot_id and the database only grows by that one fresh row. -/
theorem C2_fresh_id_no_collision (cfg : ControllerCfg) (cluster : Cluster)
    (db : List BotRow) (bot_name0 : Option String) (user : Option Nat)
    (is_strategy update : Bool) (env_vars : EnvMap) (draws : List String)
    (rand_name : String) (now : Nat) (out : CreateOut)
    (hlow : ∀ d ∈ draws, lower ("bot-" ++ d) = "bot-" ++ d)
    (h : create_bot cfg cluster db none bot_name0 user is_strategy update
      env_vars draws rand_name now = some out) :
    (∃ d ∈ draws, out.bot_id = "bot-" ++ d) ∧
    (∀ r ∈ db, r.bot_id ≠ out.bot_id) ∧
    ∃ nb, out.db = db ++ [nb] ∧ nb.bot_id = out.bot_id := by
  simp only [create_bot] at h
  cases hg : gen_bot_id db draws with
  | none => rw [hg] at h; cases h
  | some bid =>
    rw [hg] at h
    simp only [Option.map_some'] at h
    obtain ⟨hfresh, d, hd, he⟩ := gen_bot_id_fresh hg
    have hldb : lower bid = bid := by rw [he]; exact hlow d hd
    have hout : create_bot_core cfg cluster db bid bot_name0 user is_strategy
        update env_vars rand_name now = out := Option.some.inj h
    have hfind : bot_by_id db (lower bid) = none := by rw [hldb]; exact hfresh
    rw [create_core_new hfind] at hout
    subst hout
    refine ⟨⟨d, hd, by simpa [hldb] using he⟩, ?_, ?_⟩
    · intro r hr
      have hall := List.find?_eq_none.mp hfresh r hr
      simp only [decide_eq_true_eq] at hall
      simpa [hldb] using fun hc => hall hc
    · exact ⟨_, rfl, by simp [newRow, hldb]⟩

/-- Witness for C2: the first draw collides with an existing row, the
second is taken, and the inserted id is fresh. -/
theorem C2_fresh_id_no_collision_witness :
    ∃ out, create_bot cfgW clNone dbClash none none none false false []
        drawsW "Nice" 9 = some out ∧
      (∃ d ∈ drawsW, out.bot_id = "bot-" ++ d) ∧
      (∀ r ∈ dbClash, r.bot_id ≠ out.bot_id) ∧
      ∃ nb, out.db = dbClash ++ [nb] ∧ nb.bot_id = out.bot_id := by
  have hs : (create_bot cfgW clNone dbClash none none none false false []
      drawsW "Nice" 9).isSome = true := by rfl
  obtain ⟨out, hout⟩ := Option.isSome_iff_exists.mp hs
  have h := C2_fresh_id_no_collision cfgW clNone dbClash none none false false
    [] drawsW "Nice" 9 out (by decide) hout
  exact ⟨out, hout, h.1, h.2.1, h.2.2⟩

/-! Claim C4: which create_bot calls one tick makes.  The loop threads
the session database through the iterations; the lemmas below show the
identifying columns (id, bot_id) never change during a tick, so the
emitted calls can be read off the snapshot. -/

theorem any_map_general {α β : Type} (f : α → β) (l : List α) (p : β → Bool) :
    (l.map f).any p = l.any (fun a => p (f a)) := by
  induction l with
  | nil => rfl
  | cons a l ih => simp [List.any_cons, ih]

theorem find?_isSome_eq_any {α : Type} (p : α → Bool) (l : List α) :
    (l.find? p).isSome = l.any p := by
  induction l with
  | nil => rfl
  | cons a l ih =>
    cases hp : p a
    · rw [List.find?_cons_of_neg _ (by simp [hp]), List.any_cons, hp,
        Bool.false_or, ih]
    · rw [List.find?_cons_of_pos _ hp, List.any_cons, hp, Bool.true_or]
      rfl

theorem strategy_by_bot_id_congr {db1 db2 : List BotRow}
    (strategies : List StrategyRow) (bid : String)
    (h : pkPairs db1 = pkPairs db2) :
    strategy_by_bot_id db1 strategies bid = strategy_by_bot_id db2 strategies bid := by
  unfold strategy_by_bot_id
  have hf : (fun s : StrategyRow =>
      (db1.find? (fun b => b.id = s.bot_fk && b.bot_id = bid)).isSome) =
      (fun s : StrategyRow =>
      (db2.find? (fun b => b.id = s.bot_fk && b.bot_id = bid)).isSome) := by
    funext s
    rw [find?_isSome_eq_any, find?_isSome_eq_any]
    have h1 : ∀ db : List BotRow,
        db.any (fun b => b.id = s.bot_fk && b.bot_id = bid) =
        (pkPairs db).any (fun q => q.1 = s.bot_fk && q.2 = bid) := by
      intro db
      unfold pkPairs
      rw [any_map_general]
    rw [h1, h1, h]
  rw [hf]

theorem checkBotsEnv_congr {db1 db2 : List BotRow}
    (strategies : List StrategyRow) (bot : BotRow)
    (h : pkPairs db1 = pkPairs db2) :
    checkBotsEnv db1 strategies bot = checkBotsEnv db2 strategies bot := by
  unfold checkBotsEnv
  rw [strategy_by_bot_id_congr strategies bot.bot_id h]

theorem bot_by_id_isSome_pk (db : List BotRow) (x : String) :
    (bot_by_id db x).isSome = (pkPairs db).any (fun q => q.2 = x) := by
  unfold bot_by_id pkPairs
  rw [find?_isSome_eq_any, any_map_general]

/-- The write-back map of an in-place create_bot keeps every row's
identifying columns, provided bot ids are unique. -/
theorem pk_update {db : List BotRow} {target : String} {b : BotRow}
    (hfind : bot_by_id db target = some b)
    (hnodup : (db.map (fun r => r.bot_id)).Nodup) (b1 : BotRow)
    (hb1 : b1.id = b.id ∧ b1.bot_id = b.bot_id) :
    pkPairs (db.map (fun r => if r.bot_id = target then b1 else r)) = pkPairs db := by
  unfold pkPairs
  rw [List.map_map]
  apply List.map_congr_left
  intro r hr
  by_cases ht : r.bot_id = target
  · have hbmem : b ∈ db := List.mem_of_find?_eq_some hfind
    have hbid : b.bot_id = target := bot_by_id_eq_of_some hfind
    have : r = b := List.inj_on_of_nodup_map hnodup hr hbmem (by rw [ht, hbid])
    subst this
    simp [ht, hb1.1, hb1.2]
  · simp [ht]

/-- One check_bots iteration keeps the identifying columns of the
session database, when the iterated bot is a row of it. -/
theorem pk_checkBotsStep {cfg : ControllerCfg} {cluster : Cluster}
    {strategies : List StrategyRow} {now : Nat} {acc : TickAcc} {db : List BotRow}
    (hacc : pkPairs acc.db = pkPairs db)
    (hnodup : (db.map (fun r => r.bot_id)).Nodup)
    {bot : BotRow} (hmem : bot ∈ db) (hlowbot : lower bot.bot_id = bot.bot_id) :
    pkPairs (checkBotsStep cfg cluster strategies now acc bot).db = pkPairs db := by
  have hnodup2 : (acc.db.map (fun r => r.bot_id)).Nodup := by
    have : acc.db.map (fun r => r.bot_id) = db.map (fun r => r.bot_id) := by
      have h1 : ∀ d : List BotRow, d.map (fun r => r.bot_id) =
          (pkPairs d).map (fun q => q.2) := by
        intro d; unfold pkPairs; rw [List.map_map]; rfl
      rw [h1, h1, hacc]
    rw [this]
    exact hnodup
  have hpres : (bot_by_id acc.db bot.bot_id).isSome = true := by
    rw [bot_by_id_isSome_pk, hacc, ← bot_by_id_isSome_pk]
    rw [Option.isSome_iff_exists]
    refine ⟨bot, ?_⟩
    unfold bot_by_id
    have : ∃ r, db.find? (fun r => r.bot_id = bot.bot_id) = some r := by
      rw [← Option.isSome_iff_exists, find?_isSome_eq_any]
      rw [List.any_eq_true]
      exact ⟨bot, hmem, by simp⟩
    obtain ⟨r, hrfind⟩ := this
    have hrbid : r.bot_id = bot.bot_id := by
      have := List.find?_some hrfind
      simpa using this
    have hrmem : r ∈ db := List.mem_of_find?_eq_some hrfind
    have : r = bot := List.inj_on_of_nodup_map hnodup hrmem hmem hrbid
    rw [hrfind, this]
  unfold checkBotsStep
  by_cases hcond : checkBotsCond cfg cluster bot = true
  · rw [if_pos hcond]
    obtain ⟨b2, hb2⟩ := Option.isSome_iff_exists.mp hpres
    have hfind2 : bot_by_id acc.db (lower bot.bot_id) = some b2 := by
      rw [hlowbot]; exact hb2
    cases hd2 : b2.deleted_at.isSome with
    | true =>
      rw [create_core_deleted hfind2 hd2]
      exact hacc
    | false =>
      rw [create_core_active hfind2 hd2]
      have hpk := @pk_update acc.db (lower bot.bot_id) b2 hfind2 hnodup2
        (writeBack cfg (versionLt bot.version cfg.cg_version) now
          (activeConfig cfg none b2) (lower bot.bot_id) b2) ⟨rfl, rfl⟩
      rw [hpk]
      exact hacc
  · rw [if_neg hcond]
    exact hacc

theorem checkBots_fold_calls {cfg : ControllerCfg} {cluster : Cluster}
    {strategies : List StrategyRow} {now : Nat} (db : List BotRow)
    (hnodup : (db.map (fun r => r.bot_id)).Nodup)
    (l : List BotRow) (acc : TickAcc)
    (hl : ∀ bot ∈ l, bot ∈ db ∧ lower bot.bot_id = bot.bot_id)
    (hacc : pkPairs acc.db = pkPairs db) :
    (l.foldl (checkBotsStep cfg cluster strategies now) acc).calls =
      acc.calls ++ l.filterMap (fun bot =>
        if checkBotsCond cfg cluster bot then
          some { bot_id := bot.bot_id,
                 update := versionLt bot.version cfg.cg_version,
                 env := checkBotsEnv db strategies bot }
        else none) := by
  induction l generalizing acc with
  | nil => simp
  | cons bot l ih =>
    have hbot := hl bot (List.mem_cons_self _ _)
    have hstep_db : pkPairs (checkBotsStep cfg cluster strategies now acc bot).db =
        pkPairs db := pk_checkBotsStep hacc hnodup hbot.1 hbot.2
    by_cases hcond : checkBotsCond cfg cluster bot = true
    · have hstep_calls : (checkBotsStep cfg cluster strategies now acc bot).calls =
          acc.calls ++
            [{ bot_id := bot.bot_id, update := versionLt bot.version cfg.cg_version, env := checkBotsEnv acc.db strategies bot }] := by
        unfold checkBotsStep
        rw [if_pos hcond]
      rw [List.foldl_cons, List.filterMap_cons,
        ih _ (fun b hb => hl b (List.mem_cons_of_mem _ hb)) hstep_db, hstep_calls,
        checkBotsEnv_congr strategies bot hacc]
      simp [hcond]
    · have hstep : checkBotsStep cfg cluster strategies now acc bot = acc := by
        unfold checkBotsStep
        rw [if_neg hcond]
      rw [List.foldl_cons, List.filterMap_cons, hstep,
        ih _ (fun b hb => hl b (List.mem_cons_of_mem _ hb)) hacc]
      simp [hcond]

/-- C4 counterexample: a bot with `is_strategy = true` but no joined
Strategy row is recreated with empty env overrides, not with the four
strategy overrides the claim states. -/
theorem C4_counterexample :
    (check_bots cfgW clNone dbStratNoRow [] 7).calls =
      [{ bot_id := "strat1", update := false, env := [] }] ∧
    ({ bot_id := "strat1", update := false, env := [] } : CreateCall).env ≠
      strategyEnv "Strat One" := by
  constructor
  · decide
  · decide

/-- C4 amended: one tick calls create_bot exactly for the active bots
whose pod is absent or in a phase other than Running/Pending or whose
stored version is older than the controller version, passing
`update = outdated`; the env overrides are the four strategy variables
when the bot has `is_strategy = true` and a Strategy row joins to it,
and empty otherwise (also for strategy bots with no Strategy row). -/
theorem C4_check_bots_calls (cfg : ControllerCfg) (cluster : Cluster)
    (db : List BotRow) (strategies : List StrategyRow) (now : Nat)
    (hnodup : (db.map (fun r => r.bot_id)).Nodup)
    (hlow : ∀ b ∈ db, lower b.bot_id = b.bot_id) :
    (check_bots cfg cluster db strategies now).calls =
      (get_active_bots db).filterMap (fun bot =>
        if checkBotsCond cfg cluster bot then
          some { bot_id := bot.bot_id,
                 update := versionLt bot.version cfg.cg_version,
                 env := checkBotsEnv db strategies bot }
        else none) := by
  unfold check_bots
  have h := @checkBots_fold_calls cfg cluster strategies now db hnodup
    (get_active_bots db) { db := db, ops := [], calls := [] }
    (fun bot hb => by
      have hmem : bot ∈ db := (List.mem_filter.mp hb).1
      exact ⟨hmem, hlow bot hmem⟩)
    rfl
  simpa using h

/-- Witness for C4 on a database holding a strategy bot with a Strategy
row and a plain bot. -/
theorem C4_check_bots_calls_witness :
    (check_bots cfgW clNone dbStratW strategiesW 7).calls =
      (get_active_bots dbStratW).filterMap (fun bot =>
        if checkBotsCond cfgW clNone bot then
          some { bot_id := bot.bot_id,
                 update := versionLt bot.version cfgW.cg_version,
                 env := checkBotsEnv dbStratW strategiesW bot }
        else none) :=
  C4_check_bots_calls cfgW clNone dbStratW strategiesW 7 (by decide) (by decide)

/-! Claim C5: the resource renderer.  Dict facts first: updating twice
with the same nodup-keyed dict equals updating once. -/

theorem keyMem_append {α : Type} (m1 m2 : List (String × α)) (j : String) :
    keyMem (m1 ++ m2) j = (keyMem m1 j || keyMem m2 j) := by
  unfold keyMem
  exact List.any_append

theorem keyMem_map_fst {α : Type} (f : (String × α) → (String × α))
    (hf : ∀ p, (f p).1 = p.1) (m : List (String × α)) (j : String) :
    keyMem (m.map f) j = keyMem m j := by
  unfold keyMem
  rw [any_map_general]
  have : (fun p : String × α => decide ((f p).1 = j)) =
      (fun p : String × α => decide (p.1 = j)) := by
    funext p
    rw [hf p]
  rw [this]

theorem nodupKeys_cons {α : Type} {p : String × α} {u : List (String × α)}
    (h : NodupKeys (p :: u)) :
    p.1 ∉ u.map (fun q => q.1) ∧ NodupKeys u := by
  unfold NodupKeys at *
  rw [List.map_cons, List.nodup_cons] at h
  exact h

theorem keyMem_true_iff {α : Type} (m : List (String × α)) (k : String) :
    keyMem m k = true ↔ k ∈ m.map (fun q => q.1) := by
  unfold keyMem
  rw [List.any_eq_true]
  constructor
  · rintro ⟨p, hp, he⟩
    simp only [decide_eq_true_eq] at he
    exact he ▸ List.mem_map_of_mem _ hp
  · intro h
    obtain ⟨p, hp, he⟩ := List.mem_map.mp h
    exact ⟨p, hp, by simp [he]⟩

theorem lookupKey_self_of_nodup {α : Type} {u : List (String × α)}
    (h : NodupKeys u) {q : String × α} (hq : q ∈ u) :
    lookupKey u q.1 = some q.2 := by
  induction u with
  | nil => cases hq
  | cons p u ih =>
    obtain ⟨hnot, hn⟩ := nodupKeys_cons h
    rw [lookupKey_cons]
    rcases List.mem_cons.mp hq with he | hq2
    · rw [he, if_pos rfl]
    · have hne : p.1 ≠ q.1 := by
        intro he
        exact hnot (he ▸ List.mem_map_of_mem _ hq2)
      rw [if_neg hne]
      exact ih hn hq2

theorem dictUpdate_closed {α : Type} (u : List (String × α)) (hu : NodupKeys u) :
    ∀ m, dictUpdate m u =
      m.map (fun p => (p.1, (lookupKey u p.1).getD p.2)) ++
      u.filter (fun q => !(keyMem m q.1)) := by
  induction u with
  | nil =>
    intro m
    simp [dictUpdate, lookupKey_nil]
  | cons kv u ih =>
    intro m
    obtain ⟨hknot, hn⟩ := nodupKeys_cons hu
    have hkmem : keyMem u kv.1 = false := by
      cases hk : keyMem u kv.1
      · rfl
      · exact absurd ((keyMem_true_iff u kv.1).mp hk) hknot
    have hlk : lookupKey u kv.1 = none := by
      have := keyMem_eq_isSome_lookupKey u kv.1
      rw [hkmem] at this
      exact Option.not_isSome_iff_eq_none.mp (by rw [← this]; exact Bool.false_ne_true)
    have hstep : dictUpdate m (kv :: u) = dictUpdate (dictSet m kv.1 kv.2) u := rfl
    rw [hstep, ih hn (dictSet m kv.1 kv.2)]
    unfold dictSet
    by_cases hm : keyMem m kv.1 = true
    · rw [if_pos hm]
      have hmap : (m.map (fun p => if p.1 = kv.1 then (kv.1, kv.2) else p)).map
          (fun p => (p.1, (lookupKey u p.1).getD p.2)) =
          m.map (fun p => (p.1, (lookupKey (kv :: u) p.1).getD p.2)) := by
        rw [List.map_map]
        apply List.map_congr_left
        intro p _
        by_cases hp : p.1 = kv.1
        · simp only [Function.comp, hp, if_pos rfl]
          rw [lookupKey_cons]
          simp [hlk, hp]
        · simp only [Function.comp, if_neg hp]
          rw [lookupKey_cons]
          have : ¬(kv.1 = p.1) := fun he => hp he.symm
          rw [if_neg this]
      have hfil : u.filter (fun q =>
          !(keyMem (m.map (fun p => if p.1 = kv.1 then (kv.1, kv.2) else p)) q.1)) =
          u.filter (fun q => !(keyMem m q.1)) := by
        apply List.filter_congr
        intro q _
        rw [keyMem_map_fst]
        intro p
        by_cases hp : p.1 = kv.1 <;> simp [hp]
      have hrhs : (kv :: u).filter (fun q => !(keyMem m q.1)) =
          u.filter (fun q => !(keyMem m q.1)) := by
        rw [List.filter_cons_of_neg]
        simp [hm]
      rw [hmap, hfil, hrhs]
    · rw [if_neg hm]
      have hm2 : keyMem m kv.1 = false := by
        cases hk : keyMem m kv.1
        · rfl
        · exact absurd hk hm
      have hforall : ∀ p ∈ m, ¬(p.1 = kv.1) := by
        intro p hp
        have := List.any_eq_false.mp hm2 p hp
        simpa using this
      have hmap : (m ++ [kv]).map (fun p => (p.1, (lookupKey u p.1).getD p.2)) =
          m.map (fun p => (p.1, (lookupKey (kv :: u) p.1).getD p.2)) ++ [kv] := by
        rw [List.map_append]
        have h1 : m.map (fun p => (p.1, (lookupKey u p.1).getD p.2)) =
            m.map (fun p => (p.1, (lookupKey (kv :: u) p.1).getD p.2)) := by
          apply List.map_congr_left
          intro p hp
          rw [lookupKey_cons]
          have : ¬(kv.1 = p.1) := fun he => hforall p hp he.symm
          rw [if_neg this]
        have h2 : [kv].map (fun p => (p.1, (lookupKey u p.1).getD p.2)) = [kv] := by
          simp [hlk]
        rw [h1, h2]
      have hfil : u.filter (fun q => !(keyMem (m ++ [kv]) q.1)) =
          u.filter (fun q => !(keyMem m q.1)) := by
        apply List.filter_congr
        intro q hq
        rw [keyMem_append]
        have hqk : keyMem [kv] q.1 = false := by
          have hne : kv.1 ≠ q.1 := by
            intro he
            exact hknot (he ▸ List.mem_map_of_mem _ hq)
          simp [keyMem, hne]
        rw [hqk, Bool.or_false]
      have hrhs : (kv :: u).filter (fun q => !(keyMem m q.1)) =
          kv :: u.filter (fun q => !(keyMem m q.1)) := by
        rw [List.filter_cons_of_pos]
        simp [hm2]
      rw [hmap, hfil, hrhs, List.append_assoc, List.singleton_append]

theorem dictUpdate_idem {α : Type} (m u : List (String × α)) (hu : NodupKeys u) :
    dictUpdate (dictUpdate m u) u = dictUpdate m u := by
  rw [dictUpdate_closed u hu m, dictUpdate_closed u hu]
  have hfilter : u.filter (fun q => !(keyMem
      (m.map (fun p => (p.1, (lookupKey u p.1).getD p.2)) ++
        u.filter (fun q => !(keyMem m q.1))) q.1)) = [] := by
    rw [List.filter_eq_nil_iff]
    intro q hq
    rw [keyMem_append, keyMem_map_fst (fun p => (p.1, (lookupKey u p.1).getD p.2))
      (fun p => rfl) m q.1]
    cases hk : keyMem m q.1
    · have hq2 : q ∈ u.filter (fun q => !(keyMem m q.1)) := by
        rw [List.mem_filter]
        exact ⟨hq, by simp [hk]⟩
      have : keyMem (u.filter (fun q => !(keyMem m q.1))) q.1 = true := by
        unfold keyMem
        rw [List.any_eq_true]
        exact ⟨q, hq2, by simp⟩
      simp [this]
    · simp
  have hmapF : (fun p : String × α => (p.1, (lookupKey u p.1).getD p.2)) ∘
      (fun p : String × α => (p.1, (lookupKey u p.1).getD p.2)) =
      (fun p : String × α => (p.1, (lookupKey u p.1).getD p.2)) := by
    funext p
    simp only [Function.comp]
    cases hl : lookupKey u p.1 <;> simp [hl]
  have hmap : (m.map (fun p => (p.1, (lookupKey u p.1).getD p.2)) ++
      u.filter (fun q => !(keyMem m q.1))).map
      (fun p => (p.1, (lookupKey u p.1).getD p.2)) =
      m.map (fun p => (p.1, (lookupKey u p.1).getD p.2)) ++
      u.filter (fun q => !(keyMem m q.1)) := by
    rw [List.map_append, List.map_map, hmapF]
    have h2 : (u.filter (fun q => !(keyMem m q.1))).map
        (fun p => (p.1, (lookupKey u p.1).getD p.2)) =
        u.filter (fun q => !(keyMem m q.1)) := by
      have hpt : ∀ q ∈ u.filter (fun q => !(keyMem m q.1)),
          (fun p : String × α => (p.1, (lookupKey u p.1).getD p.2)) q = id q := by
        intro q hq
        have hqu : q ∈ u := List.mem_of_mem_filter hq
        simp [lookupKey_self_of_nodup hu hqu]
      rw [List.map_congr_left hpt, List.map_id]
    rw [h2]
  rw [hmap, hfilter, List.append_nil]

/-- C5 counterexample: rendering a pod with non-empty env overrides
mutates the controller configuration — the overrides are merged into
its `cg_env_vars` dict in place — so the renderer does not leave its
inputs unchanged. -/
theorem C5_counterexample :
    (get_coingro_pod rcfgW "x" [] [("B", "2")]).2 ≠ rcfgW := by decide

/-- C5 amended: the renderer reads no other state and leaves the passed
`env_overrides` unchanged, but it merges them into the config's
`cg_env_vars` dict in place whenever that key is present and the
overrides are non-empty; the mutation only ever merges the same
entries, so the post-call config differs from the input at most in
`cg_env_vars`, and rendering again with equal arguments returns the
same spec and leaves the config as it is. -/
theorem C5_render_idempotent (cfg : RConfig) (name : String)
    (config : List (String × JVal)) (env_vars : EnvMap)
    (hv : NodupKeys env_vars) :
    (∃ e, (get_coingro_pod cfg name config env_vars).2 = { cfg with cg_env_vars := e }) ∧
    get_coingro_pod (get_coingro_pod cfg name config env_vars).2 name config env_vars =
      get_coingro_pod cfg name config env_vars := by
  by_cases he : env_vars.isEmpty = true
  · have h2 : (get_coingro_pod cfg name config env_vars).2 = cfg := by
      simp [get_coingro_pod, he]
    rw [h2]
    exact ⟨⟨cfg.cg_env_vars, rfl⟩, rfl⟩
  · have he2 : env_vars.isEmpty = false := by
      cases hk : env_vars.isEmpty
      · rfl
      · exact absurd hk he
    cases hcg : cfg.cg_env_vars with
    | none =>
      have h2 : (get_coingro_pod cfg name config env_vars).2 = cfg := by
        simp [get_coingro_pod, he2, hcg]
      rw [h2]
      exact ⟨⟨cfg.cg_env_vars, rfl⟩, rfl⟩
    | some m =>
      have h2 : (get_coingro_pod cfg name config env_vars).2 =
          { cfg with cg_env_vars := some (dictUpdate m env_vars) } := by
        simp [get_coingro_pod, he2, hcg]
      refine ⟨⟨some (dictUpdate m env_vars), h2⟩, ?_⟩
      rw [h2]
      simp [get_coingro_pod, he2, hcg, dictUpdate_idem m env_vars hv]

/-- Witness for C5 at a concrete config and override map. -/
theorem C5_render_idempotent_witness :
    (∃ e, (get_coingro_pod rcfgW "x" [] [("B", "2")]).2 =
      { rcfgW with cg_env_vars := e }) ∧
    get_coingro_pod (get_coingro_pod rcfgW "x" [] [("B", "2")]).2 "x" []
        [("B", "2")] = get_coingro_pod rcfgW "x" [] [("B", "2")] :=
  C5_render_idempotent rcfgW "x" [] [("B", "2")] (by decide)

/-! Claim C7: refresh_strategies.  Lemmas about the session-row map and
the refresh step. -/

theorem sEntry_cons (r : StrategyRow) (l : List StrategyRow) (sid : Nat) :
    sEntry (r :: l) sid = if r.id = sid then some r else sEntry l sid := by
  by_cases h : r.id = sid
  · rw [if_pos h]; unfold sEntry
    rw [List.find?_cons_of_pos _ (by simpa using h)]
  · rw [if_neg h]; unfold sEntry
    rw [List.find?_cons_of_neg _ (by simpa using h)]

theorem sEntry_id_of_some {l : List StrategyRow} {sid : Nat} {x : StrategyRow}
    (h : sEntry l sid = some x) : x.id = sid := by
  have := List.find?_some h
  simpa using this

theorem sEntry_set (l : List StrategyRow) (t : Nat) (f : StrategyRow → StrategyRow)
    (hf : ∀ x, (f x).id = x.id) (sid : Nat) :
    sEntry (setStrategyRow l t f) sid =
      (sEntry l sid).map (fun x => if x.id = t then f x else x) := by
  induction l with
  | nil => rfl
  | cons r l ih =>
    unfold setStrategyRow at *
    rw [List.map_cons, sEntry_cons, sEntry_cons]
    by_cases hr : r.id = t
    · by_cases hid : r.id = sid
      · rw [if_pos hr, if_pos ((hf r).trans hid), if_pos hid]
        simp [hr]
      · rw [if_pos hr, if_neg (fun h : (f r).id = sid => hid ((hf r).symm.trans h))]
        rw [if_neg hid, ih]
    · by_cases hid : r.id = sid
      · rw [if_neg hr, if_pos hid, if_pos hid]
        simp [hr]
      · rw [if_neg hr, if_neg hid, if_neg hid, ih]

theorem sEntry_set_ne {l : List StrategyRow} {t sid : Nat}
    (f : StrategyRow → StrategyRow) (hf : ∀ x, (f x).id = x.id)
    (hne : t ≠ sid) :
    sEntry (setStrategyRow l t f) sid = sEntry l sid := by
  rw [sEntry_set l t f hf sid]
  cases he : sEntry l sid with
  | none => rfl
  | some x =>
    have hxid : x.id = sid := sEntry_id_of_some he
    have hxt : ¬(x.id = t) := by rw [hxid]; exact fun h => hne h.symm
    simp [hxt]

theorem sEntry_of_mem_nodup {l : List StrategyRow}
    (hids : (l.map (fun s => s.id)).Nodup) {s : StrategyRow} (hs : s ∈ l) :
    sEntry l s.id = some s := by
  induction l with
  | nil => cases hs
  | cons r l ih =>
    rw [List.map_cons, List.nodup_cons] at hids
    rw [sEntry_cons]
    rcases List.mem_cons.mp hs with he | hs2
    · rw [he, if_pos rfl]
    · have hne : r.id ≠ s.id := by
        intro h
        exact hids.1 (h ▸ List.mem_map_of_mem _ hs2)
      rw [if_neg hne]
      exact ih hids.2 hs2

theorem zip_fst_sublist {α β : Type} (l1 : List α) (l2 : List β) :
    ((l1.zip l2).map (fun e => e.1)).Sublist l1 := by
  induction l1 generalizing l2 with
  | nil => simp
  | cons a l1 ih =>
    cases l2 with
    | nil => simp
    | cons b l2 =>
      rw [List.zip_cons_cons, List.map_cons]
      exact List.Sublist.cons₂ a (ih l2)

/-- applyProfit keeps the primary key. -/
theorem applyProfit_id (p : ProfitData) (x : StrategyRow) :
    (applyProfit p x).id = x.id := rfl

/-- applySummary keeps the primary key. -/
theorem applySummary_id (now : Nat) (q : SummaryData) (x : StrategyRow) :
    (applySummary now q x).id = x.id := rfl

theorem refreshStep_fresh {now : Nat} {st : SessionState} {s : StrategyRow}
    (hst : staleQ now s = false) (p : Option ProfitData) (q : Option SummaryData) :
    refreshStep now st s p q = st := by
  unfold refreshStep
  rw [hst]
  simp

theorem refreshStep_profit_fail {now : Nat} {st : SessionState} {s : StrategyRow}
    (hst : staleQ now s = true) (q : Option SummaryData) :
    refreshStep now st s none q =
      { st with bots := setBotRow st.bots s.bot_fk (fun b => { b with strategy := some b.bot_name }) } := by
  unfold refreshStep
  rw [hst]
  simp

theorem refreshStep_summary_fail {now : Nat} {st : SessionState} {s : StrategyRow}
    (hst : staleQ now s = true) (p : ProfitData) :
    refreshStep now st s (some p) none =
      { st with
        bots := setBotRow st.bots s.bot_fk (fun b => { b with strategy := some b.bot_name })
        strategies := setStrategyRow st.strategies s.id (applyProfit p) } := by
  unfold refreshStep
  rw [hst]
  simp

theorem refreshStep_full {now : Nat} {st : SessionState} {s : StrategyRow}
    (hst : staleQ now s = true) (p : ProfitData) (q : SummaryData) :
    refreshStep now st s (some p) (some q) =
      { bots := setBotRow st.bots s.bot_fk (fun b => { b with strategy := some b.bot_name })
        strategies := setStrategyRow (setStrategyRow st.strategies s.id (applyProfit p)) s.id (applySummary now q)
        committed_bots := setBotRow st.bots s.bot_fk (fun b => { b with strategy := some b.bot_name })
        committed_strategies := setStrategyRow (setStrategyRow st.strategies s.id (applyProfit p)) s.id (applySummary now q) } := by
  unfold refreshStep
  rw [hst]
  simp

theorem staleQ_false_of_not {now : Nat} {s : StrategyRow}
    (h : ¬staleQ now s = true) : staleQ now s = false := by
  cases hk : staleQ now s
  · rfl
  · exact absurd hk h

theorem refreshStep_sEntry_ne (now : Nat) (st : SessionState) (s0 : StrategyRow)
    (p0 : Option ProfitData) (q0 : Option SummaryData) (sid : Nat)
    (hne : staleQ now s0 = true → s0.id ≠ sid) :
    sEntry (refreshStep now st s0 p0 q0).strategies sid =
      sEntry st.strategies sid := by
  by_cases hst : staleQ now s0 = true
  · have hne2 := hne hst
    cases p0 with
    | none => rw [refreshStep_profit_fail hst q0]
    | some pd =>
      cases q0 with
      | none =>
        rw [refreshStep_summary_fail hst pd]
        exact sEntry_set_ne (applyProfit pd) (applyProfit_id pd) hne2
      | some qd =>
        rw [refreshStep_full hst pd qd]
        show sEntry (setStrategyRow (setStrategyRow st.strategies s0.id
          (applyProfit pd)) s0.id (applySummary now qd)) sid = sEntry st.strategies sid
        rw [sEntry_set_ne (applySummary now qd) (applySummary_id now qd) hne2,
          sEntry_set_ne (applyProfit pd) (applyProfit_id pd) hne2]
  · rw [refreshStep_fresh (staleQ_false_of_not hst) p0 q0]

theorem refreshStep_clean_ne (now : Nat) (st : SessionState) (s0 : StrategyRow)
    (p0 : Option ProfitData) (q0 : Option SummaryData) (sid : Nat)
    (hne : staleQ now s0 = true → s0.id ≠ sid)
    (hclean : sEntry st.committed_strategies sid = sEntry st.strategies sid) :
    sEntry (refreshStep now st s0 p0 q0).committed_strategies sid =
      sEntry (refreshStep now st s0 p0 q0).strategies sid := by
  by_cases hst : staleQ now s0 = true
  · have hne2 := hne hst
    cases p0 with
    | none =>
      rw [refreshStep_profit_fail hst q0]
      exact hclean
    | some pd =>
      cases q0 with
      | none =>
        rw [refreshStep_summary_fail hst pd]
        show sEntry st.committed_strategies sid =
          sEntry (setStrategyRow st.strategies s0.id (applyProfit pd)) sid
        rw [sEntry_set_ne (applyProfit pd) (applyProfit_id pd) hne2]
        exact hclean
      | some qd =>
        rw [refreshStep_full hst pd qd]
  · rw [refreshStep_fresh (staleQ_false_of_not hst) p0 q0]
    exact hclean

theorem refreshLoop_frame (now sid : Nat) :
    ∀ (L : List (StrategyRow × Option ProfitData × Option SummaryData))
      (st : SessionState),
    (∀ e ∈ L, staleQ now e.1 = true → e.1.id ≠ sid) →
    sEntry st.committed_strategies sid = sEntry st.strategies sid →
    sEntry (refreshLoop now st L).strategies sid = sEntry st.strategies sid ∧
    sEntry (refreshLoop now st L).committed_strategies sid =
      sEntry st.strategies sid := by
  intro L
  induction L with
  | nil =>
    intro st _ hclean
    exact ⟨rfl, hclean⟩
  | cons e rest ih =>
    intro st hL hclean
    obtain ⟨s, p, q⟩ := e
    have hLrest : ∀ e ∈ rest, staleQ now e.1 = true → e.1.id ≠ sid :=
      fun e he => hL e (List.mem_cons_of_mem _ he)
    have hne : staleQ now s = true → s.id ≠ sid :=
      fun hst => hL (s, p, q) (List.mem_cons_self _ _) hst
    simp only [refreshLoop]
    have hpres := refreshStep_sEntry_ne now st s p q sid hne
    have hclean2 := refreshStep_clean_ne now st s p q sid hne hclean
    have h2 := ih (refreshStep now st s p q) hLrest hclean2
    exact ⟨h2.1.trans hpres, h2.2.trans hpres⟩

theorem refreshStep_full_entries (now : Nat) (st : SessionState)
    (s : StrategyRow) (p : ProfitData) (q : SummaryData)
    (hst : staleQ now s = true)
    (hentry : sEntry st.strategies s.id = some s) :
    sEntry (refreshStep now st s (some p) (some q)).strategies s.id =
      some (applySummary now q (applyProfit p s)) ∧
    sEntry (refreshStep now st s (some p) (some q)).committed_strategies s.id =
      some (applySummary now q (applyProfit p s)) := by
  rw [refreshStep_full hst p q]
  have h1 : sEntry (setStrategyRow st.strategies s.id (applyProfit p)) s.id =
      some (applyProfit p s) := by
    rw [sEntry_set _ _ _ (applyProfit_id p), hentry]
    simp
  have h2 : sEntry (setStrategyRow (setStrategyRow st.strategies s.id
      (applyProfit p)) s.id (applySummary now q)) s.id =
      some (applySummary now q (applyProfit p s)) := by
    rw [sEntry_set _ _ _ (applySummary_id now q), h1]
    simp [applyProfit_id]
  exact ⟨h2, h2⟩

theorem refreshStep_full_clean (now : Nat) (st : SessionState)
    (s : StrategyRow) (p : ProfitData) (q : SummaryData)
    (hst : staleQ now s = true) (sid : Nat) :
    sEntry (refreshStep now st s (some p) (some q)).committed_strategies sid =
      sEntry (refreshStep now st s (some p) (some q)).strategies sid := by
  rw [refreshStep_full hst p q]

theorem refreshLoop_success (now : Nat) :
    ∀ (L : List (StrategyRow × Option ProfitData × Option SummaryData))
      (st : SessionState) (s : StrategyRow) (p : ProfitData) (q : SummaryData),
    (s, some p, some q) ∈ L →
    staleQ now s = true →
    sEntry st.strategies s.id = some s →
    (L.map (fun e => e.1.id)).Nodup →
    sEntry (refreshLoop now st L).strategies s.id =
      some (applySummary now q (applyProfit p s)) ∧
    sEntry (refreshLoop now st L).committed_strategies s.id =
      some (applySummary now q (applyProfit p s)) := by
  intro L
  induction L with
  | nil =>
    intro st s p q hmem
    cases hmem
  | cons e rest ih =>
    intro st s p q hmem hst hentry hnodup
    rw [List.map_cons, List.nodup_cons] at hnodup
    simp only [refreshLoop]
    rcases List.mem_cons.mp hmem with he | hmem2
    · subst he
      have hent := refreshStep_full_entries now st s p q hst hentry
      have hLrest : ∀ e ∈ rest, staleQ now e.1 = true → e.1.id ≠ s.id := by
        intro e hr _ hc
        exact hnodup.1 (hc ▸ List.mem_map_of_mem _ hr)
      have hfr := refreshLoop_frame now s.id rest
        (refreshStep now st s (some p) (some q)) hLrest
        (refreshStep_full_clean now st s p q hst s.id)
      exact ⟨hfr.1.trans hent.1, hfr.2.trans hent.1⟩
    · obtain ⟨s0, p0, q0⟩ := e
      have hne : staleQ now s0 = true → s0.id ≠ s.id := by
        intro _ h
        exact hnodup.1 (h ▸ List.mem_map_of_mem (fun e => e.1.id) hmem2)
      exact ih (refreshStep now st s0 p0 q0) s p q hmem2 hst
        (by rw [refreshStep_sEntry_ne now st s0 p0 q0 s.id hne]; exact hentry)
        hnodup.2

theorem refreshLoop_no_commit (now : Nat) :
    ∀ (L : List (StrategyRow × Option ProfitData × Option SummaryData))
      (st : SessionState),
    (∀ e ∈ L, ¬(staleQ now e.1 = true ∧ e.2.1.isSome = true ∧ e.2.2.isSome = true)) →
    (refreshLoop now st L).committed_strategies = st.committed_strategies ∧
    (refreshLoop now st L).committed_bots = st.committed_bots := by
  intro L
  induction L with
  | nil =>
    intro st _
    exact ⟨rfl, rfl⟩
  | cons e rest ih =>
    intro st hL
    obtain ⟨s, p, q⟩ := e
    simp only [refreshLoop]
    have hstep : (refreshStep now st s p q).committed_strategies =
        st.committed_strategies ∧
        (refreshStep now st s p q).committed_bots = st.committed_bots := by
      by_cases hst : staleQ now s = true
      · cases p with
        | none =>
          rw [refreshStep_profit_fail hst q]
          exact ⟨rfl, rfl⟩
        | some pd =>
          cases q with
          | none =>
            rw [refreshStep_summary_fail hst pd]
            exact ⟨rfl, rfl⟩
          | some qd =>
            exact absurd ⟨hst, rfl, rfl⟩
              (hL (s, some pd, some qd) (List.mem_cons_self _ _))
      · rw [refreshStep_fresh (staleQ_false_of_not hst) p q]
        exact ⟨rfl, rfl⟩
    have hrest := ih (refreshStep now st s p q)
      (fun e he => hL e (List.mem_cons_of_mem _ he))
    exact ⟨hrest.1.trans hstep.1, hrest.2.trans hstep.2⟩

/-- C7 counterexample: strategy 1 fails at the trade_summary fetch after
its profit fields were already assigned; strategy 2 then succeeds and
its commit publishes the whole session, so strategy 1's committed
profit_ratio_mean changes from 0 to 5 even though its own iteration
raised. -/
theorem C7_counterexample :
    ((refresh_strategies 10000 stClean outsCE).committed_strategies.find?
      (fun s => s.id = 1)).map (fun s => s.profit_ratio_mean) = some 5 ∧
    (stClean.committed_strategies.find? (fun s => s.id = 1)).map
      (fun s => s.profit_ratio_mean) = some 0 :=
  ⟨rfl, rfl⟩

/-- C7 amended: a strategy whose latest_refresh is at most one hour old
keeps its session and committed row unchanged; a stale strategy whose
two fetches both succeed is refreshed and stamped with the current
time regardless of other strategies' failures (failures do not stop
the loop); and a failed iteration commits nothing by itself — when no
iteration fully succeeds the committed tables are unchanged.  However,
a failed iteration's partial session writes survive and are published
by any later successful iteration's commit (see the counterexample),
so the committed fields of a failed strategy are only guaranteed
unchanged when no later commit happens. -/
theorem C7_refresh_isolation (now : Nat) (st : SessionState)
    (outcomes : List (Option ProfitData × Option SummaryData))
    (hids : (st.strategies.map (fun s => s.id)).Nodup)
    (hclean : st.committed_strategies = st.strategies) :
    (∀ s ∈ st.strategies, staleQ now s = false →
      sEntry (refresh_strategies now st outcomes).strategies s.id =
        sEntry st.strategies s.id ∧
      sEntry (refresh_strategies now st outcomes).committed_strategies s.id =
        sEntry st.strategies s.id) ∧
    (∀ e ∈ (get_active_strategies st.bots st.strategies).zip outcomes,
      ∀ p q, e.2 = (some p, some q) → staleQ now e.1 = true →
      sEntry (refresh_strategies now st outcomes).committed_strategies e.1.id =
        some (applySummary now q (applyProfit p e.1)) ∧
      (applySummary now q (applyProfit p e.1)).latest_refresh = some now) ∧
    ((∀ e ∈ (get_active_strategies st.bots st.strategies).zip outcomes,
        ¬(staleQ now e.1 = true ∧ e.2.1.isSome = true ∧ e.2.2.isSome = true)) →
      (refresh_strategies now st outcomes).committed_strategies =
        st.committed_strategies ∧
      (refresh_strategies now st outcomes).committed_bots = st.committed_bots) := by
  have hsubmem : ∀ e ∈ (get_active_strategies st.bots st.strategies).zip outcomes,
      e.1 ∈ st.strategies := by
    intro e he
    obtain ⟨a, b⟩ := e
    exact List.mem_of_mem_filter (List.of_mem_zip he).1
  refine ⟨?_, ?_, ?_⟩
  · intro s hs hfresh
    apply refreshLoop_frame now s.id _ st
    · intro e he hst hc
      have := List.inj_on_of_nodup_map hids (hsubmem e he) hs hc
      rw [this, hfresh] at hst
      cases hst
    · rw [hclean]
  · intro e he p q he2 hst
    have he3 : (e.1, (some p, some q)) ∈
        (get_active_strategies st.bots st.strategies).zip outcomes := by
      rw [← he2, Prod.mk.eta]
      exact he
    have hentry : sEntry st.strategies e.1.id = some e.1 :=
      sEntry_of_mem_nodup hids (hsubmem e he)
    have hLids : (((get_active_strategies st.bots st.strategies).zip outcomes).map
        (fun e => e.1.id)).Nodup := by
      have h1 := zip_fst_sublist (get_active_strategies st.bots st.strategies) outcomes
      have h2 := h1.trans (List.filter_sublist st.strategies)
      have h3 := (h2.map (fun s : StrategyRow => s.id)).nodup hids
      rw [List.map_map] at h3
      exact h3
    have hsucc := refreshLoop_success now
      ((get_active_strategies st.bots st.strategies).zip outcomes) st e.1 p q
      he3 hst hentry hLids
    exact ⟨hsucc.2, rfl⟩
  · intro h
    exact refreshLoop_no_commit now _ st h

/-- Witness for C7: a fresh strategy stays untouched and a stale one is
refreshed and stamped, on a concrete clean session. -/
theorem C7_refresh_isolation_witness :
    (∀ s ∈ stMixed.strategies, staleQ 10000 s = false →
      sEntry (refresh_strategies 10000 stMixed outsOK).strategies s.id =
        sEntry stMixed.strategies s.id ∧
      sEntry (refresh_strategies 10000 stMixed outsOK).committed_strategies s.id =
        sEntry stMixed.strategies s.id) ∧
    (∀ e ∈ (get_active_strategies stMixed.bots stMixed.strategies).zip outsOK,
      ∀ p q, e.2 = (some p, some q) → staleQ 10000 e.1 = true →
      sEntry (refresh_strategies 10000 stMixed outsOK).committed_strategies e.1.id =
        some (applySummary 10000 q (applyProfit p e.1)) ∧
      (applySummary 10000 q (applyProfit p e.1)).latest_refresh = some 10000) ∧
    ((∀ e ∈ (get_active_strategies stMixed.bots stMixed.strategies).zip outsOK,
        ¬(staleQ 10000 e.1 = true ∧ e.2.1.isSome = true ∧ e.2.2.isSome = true)) →
      (refresh_strategies 10000 stMixed outsOK).committed_strategies =
        stMixed.committed_strategies ∧
      (refresh_strategies 10000 stMixed outsOK).committed_bots =
        stMixed.committed_bots) :=
  C7_refresh_isolation 10000 stMixed outsOK (by decide) rfl

end CGC
